import Mathlib

/-!
# purchases-service: the message pipeline of `cmd/purchases/main.go`

A shallow embedding of `processMessage`, `processPurchaseMessage`,
`processDonationMessage` and the consumption loop of `main`, together with
models of the three collaborators they call:

* `encoding/json` (`json.Unmarshal` into `map[string]interface{}` and into the
  two message structs),
* `pgxpool.Pool.Exec` on the two tables declared by `createTables`,
* the `slog` logger.

Message bodies are modelled as text (`String`), that is, as valid UTF-8, and
a Go `int` as a 64-bit signed integer. A stored row holds what the column
types of `createTables` make of the bound values: a `TIMESTAMP` column keeps
the wall clock of a time without its zone, in whole microseconds, and an
`INT` column refuses an integer beyond 32 bits. What the service does not decide (how
package `time` parses a timestamp, whether the store carries out a statement,
what the clock of the store shows) is a parameter of the model, `Env`.
-/

namespace Purchases

/-! ## JSON text: the grammar accepted by the `encoding/json` scanner -/

/-- A scanned JSON value. Number and string literals keep their source text
(for a string: the text between the quotes, escapes not yet resolved), since
the decoders interpret that text differently per target type. -/
inductive JSON where
  | null
  | bool (b : Bool)
  | number (lit : List Char)
  | string (raw : List Char)
  | array (elems : List JSON)
  | object (members : List (List Char × JSON))
  deriving Inhabited

/-- Nesting limit of the scanner (`maxNestingDepth` in `encoding/json`). -/
def maxNestingDepth : Nat := 10000

/-- The four blanks the scanner skips between tokens. -/
def isSpace (c : Char) : Bool :=
  c == ' ' || c == '\t' || c == '\r' || c == '\n'

def skipSpace : List Char → List Char
  | [] => []
  | c :: cs => if isSpace c then skipSpace cs else c :: cs

def isDigit (c : Char) : Bool := '0' ≤ c && c ≤ '9'

def isHex (c : Char) : Bool :=
  isDigit c || ('a' ≤ c && c ≤ 'f') || ('A' ≤ c && c ≤ 'F')

/-- Scans the rest of a string literal, the opening quote already consumed.
Returns the raw text before the closing quote and the input after it. A
control character, an unknown escape or a missing closing quote is an error. -/
def scanString : List Char → Option (List Char × List Char)
  | [] => none
  | c :: cs =>
    if c == '\"' then some ([], cs)
    else if c == '\\' then
      match cs with
      | [] => none
      | e :: cs1 =>
        if e == 'u' then
          match cs1 with
          | h1 :: h2 :: h3 :: h4 :: cs2 =>
            if isHex h1 && isHex h2 && isHex h3 && isHex h4 then
              (scanString cs2).map
                (fun r => (c :: e :: h1 :: h2 :: h3 :: h4 :: r.1, r.2))
            else none
          | _ => none
        else if e == 'b' || e == 'f' || e == 'n' || e == 'r' || e == 't'
            || e == '\\' || e == '/' || e == '\"' then
          (scanString cs1).map (fun r => (c :: e :: r.1, r.2))
        else none
    else if c.toNat < 32 then none
    else (scanString cs).map (fun r => (c :: r.1, r.2))

/-- Takes the longest run of decimal digits. -/
def spanDigits : List Char → List Char × List Char
  | [] => ([], [])
  | c :: cs =>
    if isDigit c then ((spanDigits cs).1.cons c, (spanDigits cs).2) else ([], c :: cs)

/-- The integer part of a number: `0`, or a non-zero digit and more digits. -/
def scanIntPart : List Char → Option (List Char × List Char)
  | [] => none
  | c :: cs =>
    if c == '0' then some ([c], cs)
    else if isDigit c then some (c :: (spanDigits cs).1, (spanDigits cs).2)
    else none

/-- An optional fraction: a period and at least one digit. -/
def scanFraction : List Char → Option (List Char × List Char)
  | '.' :: cs =>
    match spanDigits cs with
    | ([], _) => none
    | (ds, rest) => some ('.' :: ds, rest)
  | cs => some ([], cs)

/-- An optional exponent: `e` or `E`, an optional sign, at least one digit. -/
def scanExponent : List Char → Option (List Char × List Char)
  | [] => some ([], [])
  | c :: cs =>
    if c == 'e' || c == 'E' then
      match cs with
      | [] => none
      | s :: cs1 =>
        if s == '+' || s == '-' then
          match spanDigits cs1 with
          | ([], _) => none
          | (ds, rest) => some (c :: s :: ds, rest)
        else
          match spanDigits (s :: cs1) with
          | ([], _) => none
          | (ds, rest) => some (c :: ds, rest)
    else some ([], c :: cs)

/-- An optional minus sign. -/
def scanSign : List Char → List Char × List Char
  | '-' :: rest => (['-'], rest)
  | cs => ([], cs)

/-- Scans a number literal and returns its text. -/
def scanNumber (cs : List Char) : Option (List Char × List Char) :=
  match scanIntPart (scanSign cs).2 with
  | none => none
  | some (ip, r1) =>
    match scanFraction r1 with
    | none => none
    | some (fp, r2) =>
      match scanExponent r2 with
      | none => none
      | some (ep, r3) => some ((scanSign cs).1 ++ ip ++ fp ++ ep, r3)

/-- Drops `lit` from the front of the input when it is there. -/
def dropLiteral : List Char → List Char → Option (List Char)
  | [], cs => some cs
  | _ :: _, [] => none
  | l :: ls, c :: cs => if l == c then dropLiteral ls cs else none

mutual

/-- Scans one JSON value after optional blanks; `depth` counts the open
arrays and objects around it. `fuel` bounds the number of nested calls: of
any two calls in a row at least one consumes a character, so twice the length
of the input plus two is always enough. -/
def scanValue : Nat → Nat → List Char → Option (JSON × List Char)
  | 0, _, _ => none
  | fuel + 1, depth, cs =>
    match skipSpace cs with
    | [] => none
    | c :: rest =>
      if c == '\x7b' then
        if depth < maxNestingDepth then
          match skipSpace rest with
          | [] => none
          | d :: rest1 =>
            if d == '\x7d' then some (JSON.object [], rest1)
            else
              (scanMembers fuel (depth + 1) (d :: rest1)).map
                (fun r => (JSON.object r.1, r.2))
        else none
      else if c == '[' then
        if depth < maxNestingDepth then
          match skipSpace rest with
          | [] => none
          | d :: rest1 =>
            if d == ']' then some (JSON.array [], rest1)
            else
              (scanElems fuel (depth + 1) (d :: rest1)).map
                (fun r => (JSON.array r.1, r.2))
        else none
      else if c == '\"' then
        (scanString rest).map (fun r => (JSON.string r.1, r.2))
      else if c == '-' || isDigit c then
        (scanNumber (c :: rest)).map (fun r => (JSON.number r.1, r.2))
      else if c == 't' then
        (dropLiteral ['r', 'u', 'e'] rest).map (fun r => (JSON.bool true, r))
      else if c == 'f' then
        (dropLiteral ['a', 'l', 's', 'e'] rest).map (fun r => (JSON.bool false, r))
      else if c == 'n' then
        (dropLiteral ['u', 'l', 'l'] rest).map (fun r => (JSON.null, r))
      else none

/-- Scans `value (, value)* ]`, the input standing at the first value. -/
def scanElems : Nat → Nat → List Char → Option (List JSON × List Char)
  | 0, _, _ => none
  | fuel + 1, depth, cs =>
    match scanValue fuel depth cs with
    | none => none
    | some (v, rest) =>
      match skipSpace rest with
      | [] => none
      | c :: rest1 =>
        if c == ',' then
          (scanElems fuel depth rest1).map (fun r => (v :: r.1, r.2))
        else if c == ']' then some ([v], rest1)
        else none

/-- Scans `"key" : value (, "key" : value)* }`, the input standing at the
first key or at blanks before it. -/
def scanMembers : Nat → Nat → List Char → Option (List (List Char × JSON) × List Char)
  | 0, _, _ => none
  | fuel + 1, depth, cs =>
    match skipSpace cs with
    | [] => none
    | q :: rest =>
      if q == '\"' then
        match scanString rest with
        | none => none
        | some (key, rest1) =>
          match skipSpace rest1 with
          | [] => none
          | colon :: rest2 =>
            if colon == ':' then
              match scanValue fuel depth rest2 with
              | none => none
              | some (v, rest3) =>
                match skipSpace rest3 with
                | [] => none
                | c :: rest4 =>
                  if c == ',' then
                    (scanMembers fuel depth rest4).map
                      (fun r => ((key, v) :: r.1, r.2))
                  else if c == '\x7d' then some ([(key, v)], rest4)
                  else none
            else none
      else none

end

/-- The whole body as one JSON value with blanks around it (`checkValid`);
`none` is a scanner error. -/
def parseJSON (body : String) : Option JSON :=
  match scanValue (2 * body.length + 2) 0 body.toList with
  | none => none
  | some (v, rest) =>
    match skipSpace rest with
    | [] => some v
    | _ :: _ => none

/-! ## String literals: `unquote` -/

def hexVal (c : Char) : Nat :=
  if isDigit c then c.toNat - 48
  else if 'a' ≤ c && c ≤ 'f' then c.toNat - 87
  else c.toNat - 55

/-- The value of four hex digits (`getu4` without its leading `\u`). -/
def hex4 (h1 h2 h3 h4 : Char) : Nat :=
  ((hexVal h1 * 16 + hexVal h2) * 16 + hexVal h3) * 16 + hexVal h4

/-- The replacement character `U+FFFD`. -/
def replacementChar : Char := Char.ofNat 0xFFFD

/-- The low half of a surrogate pair written as `\uXXXX` at the front of the
input, if one stands there. -/
def lowSurrogate : List Char → Option Nat
  | '\\' :: 'u' :: h1 :: h2 :: h3 :: h4 :: _ =>
    if isHex h1 && isHex h2 && isHex h3 && isHex h4
        && 0xDC00 ≤ hex4 h1 h2 h3 h4 && hex4 h1 h2 h3 h4 < 0xE000 then
      some (hex4 h1 h2 h3 h4)
    else none
  | _ => none

/-- Resolves the escapes of a scanned string literal. A `\u` escape that is a
high surrogate followed by a low one yields the combined character, any other
surrogate yields `U+FFFD`. `fuel` bounds the number of steps; the length of
the text is enough. -/
def unquoteAux : Nat → List Char → List Char
  | 0, _ => []
  | _, [] => []
  | fuel + 1, c :: cs =>
    if c == '\\' then
      match cs with
      | [] => []
      | e :: cs1 =>
        if e == 'u' then
          match cs1 with
          | h1 :: h2 :: h3 :: h4 :: cs2 =>
            let rr := hex4 h1 h2 h3 h4
            if 0xD800 ≤ rr && rr < 0xE000 then
              match lowSurrogate cs2 with
              | some lo =>
                if rr < 0xDC00 then
                  Char.ofNat ((rr - 0xD800) * 1024 + (lo - 0xDC00) + 0x10000)
                    :: unquoteAux fuel (cs2.drop 6)
                else replacementChar :: unquoteAux fuel cs2
              | none => replacementChar :: unquoteAux fuel cs2
            else Char.ofNat rr :: unquoteAux fuel cs2
          | _ => []
        else if e == 'b' then Char.ofNat 8 :: unquoteAux fuel cs1
        else if e == 'f' then Char.ofNat 12 :: unquoteAux fuel cs1
        else if e == 'n' then '\n' :: unquoteAux fuel cs1
        else if e == 'r' then '\r' :: unquoteAux fuel cs1
        else if e == 't' then '\t' :: unquoteAux fuel cs1
        else e :: unquoteAux fuel cs1
    else c :: unquoteAux fuel cs

def unquote (raw : List Char) : String :=
  String.mk (unquoteAux raw.length raw)

/-! ## Number literals: `strconv.ParseInt` and `strconv.ParseFloat` -/

def digitsValue (ds : List Char) : Nat :=
  ds.foldl (fun n c => 10 * n + (c.toNat - 48)) 0

/-- The literal as a Go `int` (`strconv.ParseInt(s, 10, 64)`): an optional
minus sign and digits only, within the range of a 64-bit signed integer. -/
def parseInt64 (lit : List Char) : Option Int :=
  let neg : Bool := lit.head? == some '-'
  let ds : List Char := if neg then lit.tail else lit
  if !ds.isEmpty && ds.all isDigit then
    let v : Int := if neg then -(digitsValue ds : Int) else (digitsValue ds : Int)
    if -(2 ^ 63 : Int) ≤ v && v ≤ (2 ^ 63 : Int) - 1 then some v else none
  else none

/-- The magnitude of a number literal as `mant * 10 ^ exp`. -/
structure Decimal where
  mant : Nat
  exp : Int
  deriving DecidableEq

def decimalOf (lit : List Char) : Decimal :=
  let unsigned : List Char :=
    match lit with
    | '-' :: rest => rest
    | _ => lit
  let ip := spanDigits unsigned
  let fp : List Char × List Char :=
    match ip.2 with
    | '.' :: rest => spanDigits rest
    | _ => ([], ip.2)
  let ex : Int :=
    match fp.2 with
    | [] => 0
    | _ :: s :: rest =>
      if s == '-' then -(digitsValue rest : Int)
      else if s == '+' then (digitsValue rest : Int)
      else (digitsValue (s :: rest) : Int)
    | _ => 0
  { mant := digitsValue (ip.1 ++ fp.1), exp := ex - (fp.1.length : Int) }

/-- Half an ulp above the largest finite `float64`: a magnitude from here on
rounds to infinity. -/
def float64Limit : Nat := 2 ^ 1024 - 2 ^ 970

/-- Whether `strconv.ParseFloat(s, 64)` reports a range error for the literal. -/
def overflowsFloat64 (lit : List Char) : Bool :=
  let d := decimalOf lit
  if 0 ≤ d.exp then decide (float64Limit ≤ d.mant * 10 ^ d.exp.toNat)
  else decide (float64Limit * 10 ^ (-d.exp).toNat ≤ d.mant)

/-! ## `time.Time` -/

/-- An instant with the zone offset it was written in. `sec` counts seconds
since January 1 of year 1, 00:00:00 UTC; `offset` is in seconds east of UTC. -/
structure Time where
  sec : Int
  nsec : Nat
  offset : Int
  deriving DecidableEq

/-- The zero value `time.Time{}`. -/
def Time.zero : Time := { sec := 0, nsec := 0, offset := 0 }

def Time.IsZero (t : Time) : Bool := t.sec == 0 && t.nsec == 0

/-- What a `TIMESTAMP` column keeps of a Go time: the wall clock in the zone
the time carries, with the zone dropped and the fraction of a second cut to
whole microseconds. It is written as the time that reading the column gives
back, which is in UTC. -/
def Time.toTimestamp (t : Time) : Time :=
  { sec := t.sec + t.offset, nsec := t.nsec / 1000 * 1000, offset := 0 }

/-! ## The store behind `pgxpool.Pool` -/

/-- A value bound to a statement parameter or held in a column. -/
inductive Value where
  | null
  | text (s : String)
  | int (n : Int)
  | timestamp (t : Time)
  deriving DecidableEq

inductive SqlType where
  | TEXT
  | INT
  | TIMESTAMP
  deriving DecidableEq

/-- What a column receives when an `INSERT` does not list it. -/
inductive ColumnDefault where
  | null
  | CURRENT_TIMESTAMP
  deriving DecidableEq

structure Column where
  name : String
  type : SqlType
  dflt : ColumnDefault
  deriving DecidableEq

/-- The table `ticket_purchases` as `createTables` declares it. -/
def ticket_purchases_columns : List Column :=
  [ { name := "user_token", type := .TEXT, dflt := .null },
    { name := "place_id", type := .INT, dflt := .null },
    { name := "event_time", type := .TIMESTAMP, dflt := .null },
    { name := "purchase_time", type := .TIMESTAMP, dflt := .CURRENT_TIMESTAMP },
    { name := "cost", type := .INT, dflt := .null } ]

/-- The table `donations` as `createTables` declares it. -/
def donations_columns : List Column :=
  [ { name := "user_token", type := .TEXT, dflt := .null },
    { name := "collection_id", type := .INT, dflt := .null },
    { name := "donation_time", type := .TIMESTAMP, dflt := .CURRENT_TIMESTAMP },
    { name := "amount", type := .INT, dflt := .null } ]

/-- A stored row: every column of the table with its value, in table order. -/
abbrev Row := List (String × Value)

/-- The statement `INSERT INTO table(columns) VALUES ($i, $j, ...)` together
with the arguments passed for `$1`, `$2`, ...; `values` lists the parameter
numbers in the order they are written. -/
structure Stmt where
  table : String
  columns : List String
  values : List Nat
  args : List Value
  deriving DecidableEq

/-- A Go `error` value that is not nil. -/
inductive Error where
  | json
  | exec
  | wrap (msg : String) (cause : Error)
  deriving DecidableEq

/-- The tables and the statements submitted so far, oldest first. -/
structure Pool where
  ticket_purchases : List Row
  donations : List Row
  execs : List Stmt
  deriving DecidableEq

/-- The collaborators whose behaviour the service does not decide.
* `parseTime`: the RFC 3339 parser behind `time.Time.UnmarshalJSON`, applied
  to the raw text between the quotes of a JSON string;
* `execOk n st`: `false` when the store refuses `st` as the statement number
  `n` submitted to it for a reason of its own, such as an outage (it can
  refuse any statement at any time);
* `now n`: the value of `CURRENT_TIMESTAMP` during statement number `n`. -/
structure Env where
  parseTime : List Char → Option Time
  execOk : Nat → Stmt → Bool
  now : Nat → Time

/-- The value the statement gives to column `name`: the argument of the
parameter written at the position of `name` in the column list. -/
def Stmt.bound (st : Stmt) (name : String) : Option Value :=
  match (st.columns.zip st.values).lookup name with
  | none => none
  | some i => if i = 0 then none else st.args.get? (i - 1)

/-- Whether a `TEXT` column takes the string: it holds no character NUL. -/
def textOk (s : String) : Bool := !s.toList.any (fun c => c.toNat == 0)

/-- Whether an `INT` column takes the integer: it fits 32 bits. -/
def int4Ok (n : Int) : Bool := -(2 ^ 31 : Int) ≤ n && n ≤ (2 ^ 31 : Int) - 1

/-- The value a column of the given type keeps for an argument bound to it,
`none` when the store refuses the argument: a `TEXT` column keeps a string
as it is, an `INT` column an integer as it is, a `TIMESTAMP` column the wall
clock of a time in microseconds. The service binds no other combination. -/
def SqlType.store : SqlType → Value → Option Value
  | .TEXT, .text s => if textOk s then some (.text s) else none
  | .INT, .int n => if int4Ok n then some (.int n) else none
  | .TIMESTAMP, .timestamp t => some (.timestamp t.toTimestamp)
  | _, _ => none

/-- The value of one column in the row an `INSERT` creates: a listed column
keeps what its type makes of the bound argument, any other column its
default (`now` is the value `CURRENT_TIMESTAMP` gives the column). -/
def columnValue (c : Column) (st : Stmt) (now : Time) : Option Value :=
  match st.bound c.name with
  | some v => c.type.store v
  | none =>
    match c.dflt with
    | .null => some Value.null
    | .CURRENT_TIMESTAMP => some (Value.timestamp now)

/-- The row an `INSERT` creates, `none` when a column refuses its argument. -/
def buildRow : List Column → Stmt → Time → Option Row
  | [], _, _ => some []
  | c :: cs, st, now =>
    match columnValue c st now, buildRow cs st now with
    | some v, some row => some ((c.name, v) :: row)
    | _, _ => none

/-- Whether the statement is well formed for a table with columns `cols`:
it names only columns of the table and every parameter has an argument. -/
def Stmt.fits (st : Stmt) (cols : List Column) : Bool :=
  st.columns.length == st.values.length
    && st.columns.all (fun n => cols.any (fun c => c.name == n))
    && st.values.all (fun i => 1 ≤ i && i ≤ st.args.length)

/-- The row the statement creates in the table `table` with columns `cols`,
`none` when it is a statement for another table, is not well formed, or binds
a value its column refuses. -/
def Stmt.rowFor (st : Stmt) (table : String) (cols : List Column) (now : Time) :
    Option Row :=
  if st.table == table && st.fits cols then buildRow cols st now else none

/-- The call `dbpool.Exec(ctx, sql, args...)`: the statement is recorded as
submitted; if the store carries it out, one row is appended to its table.
The store fails when it refuses the statement (it can do so at any time) and
when a bound value does not fit its column. -/
def Pool.Exec (env : Env) (db : Pool) (st : Stmt) : Pool × Option Error :=
  let n := db.execs.length
  let db1 : Pool := { db with execs := db.execs ++ [st] }
  if env.execOk n st then
    match st.rowFor "ticket_purchases" ticket_purchases_columns (env.now n) with
    | some row => ({ db1 with ticket_purchases := db1.ticket_purchases ++ [row] }, none)
    | none =>
      match st.rowFor "donations" donations_columns (env.now n) with
      | some row => ({ db1 with donations := db1.donations ++ [row] }, none)
      | none => (db1, some Error.exec)
  else (db1, some Error.exec)

/-! ## The logger -/

inductive Level where
  | Info
  | Warn
  | Error
  deriving DecidableEq

/-- A record written to the logger: its level and message (the attributes
are left out). -/
structure LogRecord where
  level : Level
  msg : String
  deriving DecidableEq

/-- What a call can change: the store and the log. -/
structure World where
  db : Pool
  log : List LogRecord
  deriving DecidableEq

def World.Info (w : World) (msg : String) : World :=
  { w with log := w.log ++ [{ level := .Info, msg := msg }] }

def World.Warn (w : World) (msg : String) : World :=
  { w with log := w.log ++ [{ level := .Warn, msg := msg }] }

def World.Error (w : World) (msg : String) : World :=
  { w with log := w.log ++ [{ level := .Error, msg := msg }] }

/-! ## `json.Unmarshal` -/

mutual

/-- Whether every number literal inside the value converts to a `float64`
without a range error, as decoding into `interface{}` requires. -/
def JSON.floatsOk : JSON → Bool
  | .number lit => !overflowsFloat64 lit
  | .array elems => floatsOkElems elems
  | .object members => floatsOkMembers members
  | _ => true

def floatsOkElems : List JSON → Bool
  | [] => true
  | v :: vs => v.floatsOk && floatsOkElems vs

def floatsOkMembers : List (List Char × JSON) → Bool
  | [] => true
  | kv :: ms => kv.2.floatsOk && floatsOkMembers ms

end

/-- A Go `map[string]interface{}`: its entries in the order they were
written. The nil map has no entries. -/
abbrev GoMap := List (String × JSON)

/-- The lookup `_, ok := m[key]`. -/
def GoMap.has (m : GoMap) (key : String) : Bool :=
  m.any (fun kv => kv.1 == key)

/-- The call `json.Unmarshal(body, &messageType)` for a nil
`map[string]interface{}`. An object yields its entries; `null` leaves the map
nil without an error; any other value, a scanner error, or a number out of
the `float64` range is an error. -/
def unmarshalMap (body : String) : Except Error GoMap :=
  match parseJSON body with
  | none => .error Error.json
  | some (.object members) =>
    if floatsOkMembers members then
      .ok (members.map (fun kv => (unquote kv.1, kv.2)))
    else .error Error.json
  | some .null => .ok []
  | some _ => .error Error.json

/-- The least character of a case-folding class, for the classes that hold
an ASCII letter: lower case folds to upper case, and so do the long s
(`U+017F`) and the Kelvin sign (`U+212A`). -/
def foldRune (c : Char) : Char :=
  if 'a' ≤ c && c ≤ 'z' then Char.ofNat (c.toNat - 32)
  else if c.toNat == 0x17F then 'S'
  else if c.toNat == 0x212A then 'K'
  else c

/-- Whether an object key selects the struct field tagged `name`: an exact
match, or else a match up to case folding. -/
def keyMatches (key name : String) : Bool :=
  key == name || key.toList.map foldRune == name.toList.map foldRune

/-- Decoding a value into a `string` field. -/
def decodeString (v : JSON) (old : String) : Except Error String :=
  match v with
  | .null => .ok old
  | .string raw => .ok (unquote raw)
  | _ => .error Error.json

/-- Decoding a value into an `int` field. -/
def decodeInt (v : JSON) (old : Int) : Except Error Int :=
  match v with
  | .null => .ok old
  | .number lit =>
    match parseInt64 lit with
    | some n => .ok n
    | none => .error Error.json
  | _ => .error Error.json

/-- Decoding a value into a `time.Time` field (`Time.UnmarshalJSON`): `null`
is a no-op, a string is parsed from its raw text, anything else is an error. -/
def decodeTime (env : Env) (v : JSON) (old : Time) : Except Error Time :=
  match v with
  | .null => .ok old
  | .string raw =>
    match env.parseTime raw with
    | some t => .ok t
    | none => .error Error.json
  | _ => .error Error.json

structure PurchaseMessage where
  UserToken : String
  PlaceID : Int
  EventTime : Time
  PurchaseTime : Time
  Cost : Int
  deriving DecidableEq

structure DonationMessage where
  UserToken : String
  CollectionID : Int
  DonationTime : Time
  Amount : Int
  deriving DecidableEq

/-- The zero value `var dbmsg PurchaseMessage`. -/
def PurchaseMessage.zero : PurchaseMessage :=
  { UserToken := "", PlaceID := 0, EventTime := Time.zero, PurchaseTime := Time.zero, Cost := 0 }

/-- The zero value `var dbmsg DonationMessage`. -/
def DonationMessage.zero : DonationMessage :=
  { UserToken := "", CollectionID := 0, DonationTime := Time.zero, Amount := 0 }

/-- One object member decoded into the struct: the field the key selects is
set from the value, a key that selects no field is skipped. -/
def PurchaseMessage.setField (env : Env) (m : PurchaseMessage) (key : String) (v : JSON) :
    Except Error PurchaseMessage :=
  if keyMatches key "user_token" then
    (decodeString v m.UserToken).map (fun x => { m with UserToken := x })
  else if keyMatches key "place_id" then
    (decodeInt v m.PlaceID).map (fun x => { m with PlaceID := x })
  else if keyMatches key "event_time" then
    (decodeTime env v m.EventTime).map (fun x => { m with EventTime := x })
  else if keyMatches key "purchase_time" then
    (decodeTime env v m.PurchaseTime).map (fun x => { m with PurchaseTime := x })
  else if keyMatches key "cost" then
    (decodeInt v m.Cost).map (fun x => { m with Cost := x })
  else .ok m

def DonationMessage.setField (env : Env) (m : DonationMessage) (key : String) (v : JSON) :
    Except Error DonationMessage :=
  if keyMatches key "user_token" then
    (decodeString v m.UserToken).map (fun x => { m with UserToken := x })
  else if keyMatches key "collection_id" then
    (decodeInt v m.CollectionID).map (fun x => { m with CollectionID := x })
  else if keyMatches key "donation_time" then
    (decodeTime env v m.DonationTime).map (fun x => { m with DonationTime := x })
  else if keyMatches key "amount" then
    (decodeInt v m.Amount).map (fun x => { m with Amount := x })
  else .ok m

/-- The members of an object decoded in the order they are written. -/
def PurchaseMessage.setFields (env : Env) :
    List (List Char × JSON) → PurchaseMessage → Except Error PurchaseMessage
  | [], m => .ok m
  | kv :: rest, m =>
    match m.setField env (unquote kv.1) kv.2 with
    | .error e => .error e
    | .ok m1 => PurchaseMessage.setFields env rest m1

def DonationMessage.setFields (env : Env) :
    List (List Char × JSON) → DonationMessage → Except Error DonationMessage
  | [], m => .ok m
  | kv :: rest, m =>
    match m.setField env (unquote kv.1) kv.2 with
    | .error e => .error e
    | .ok m1 => DonationMessage.setFields env rest m1

/-- The call `json.Unmarshal(body, &dbmsg)` for a zero `PurchaseMessage`. In
the error case the partly filled struct is dropped: the caller returns
without reading it. -/
def unmarshalPurchase (env : Env) (body : String) : Except Error PurchaseMessage :=
  match parseJSON body with
  | none => .error Error.json
  | some (.object members) => PurchaseMessage.setFields env members PurchaseMessage.zero
  | some .null => .ok PurchaseMessage.zero
  | some _ => .error Error.json

/-- The call `json.Unmarshal(body, &dbmsg)` for a zero `DonationMessage`. -/
def unmarshalDonation (env : Env) (body : String) : Except Error DonationMessage :=
  match parseJSON body with
  | none => .error Error.json
  | some (.object members) => DonationMessage.setFields env members DonationMessage.zero
  | some .null => .ok DonationMessage.zero
  | some _ => .error Error.json

/-! ## The message pipeline of `main.go` -/

/-- The statement of `processPurchaseMessage`:
`INSERT INTO ticket_purchases(user_token, place_id, event_time, purchase_time, cost)
VALUES ($1, $2, $3, $4, $5)` with the five fields of the message. -/
def purchaseInsert (dbmsg : PurchaseMessage) : Stmt :=
  { table := "ticket_purchases",
    columns := ["user_token", "place_id", "event_time", "purchase_time", "cost"],
    values := [1, 2, 3, 4, 5],
    args := [.text dbmsg.UserToken, .int dbmsg.PlaceID, .timestamp dbmsg.EventTime,
      .timestamp dbmsg.PurchaseTime, .int dbmsg.Cost] }

/-- The statement of `processDonationMessage`:
`INSERT INTO donations(user_token, collection_id, donation_time, amount)
VALUES ($1, $2, $3, $4)` with the four fields of the message. -/
def donationInsert (dbmsg : DonationMessage) : Stmt :=
  { table := "donations",
    columns := ["user_token", "collection_id", "donation_time", "amount"],
    values := [1, 2, 3, 4],
    args := [.text dbmsg.UserToken, .int dbmsg.CollectionID, .timestamp dbmsg.DonationTime,
      .int dbmsg.Amount] }

def processPurchaseMessage (env : Env) (body : String) (w : World) : World × Option Error :=
  match unmarshalPurchase env body with
  | .error err => (w, some (Error.wrap "failed to unmarshal purchase message" err))
  | .ok dbmsg =>
    if dbmsg.UserToken == "" || dbmsg.PlaceID == 0 || dbmsg.EventTime.IsZero
        || dbmsg.Cost == 0 then
      (w.Warn "Received invalid purchase message", none)
    else
      match w.db.Exec env (purchaseInsert dbmsg) with
      | (db, some err) =>
        ({ w with db := db },
          some (Error.wrap "failed to insert purchase message into Postgres" err))
      | (db, none) => (World.Info { w with db := db } "Saved ticket purchase", none)

def processDonationMessage (env : Env) (body : String) (w : World) : World × Option Error :=
  match unmarshalDonation env body with
  | .error err => (w, some (Error.wrap "failed to unmarshal donation message" err))
  | .ok dbmsg =>
    if dbmsg.UserToken == "" || dbmsg.CollectionID == 0 || dbmsg.Amount == 0 then
      (w.Warn "Received invalid donation message", none)
    else
      match w.db.Exec env (donationInsert dbmsg) with
      | (db, some err) =>
        ({ w with db := db },
          some (Error.wrap "failed to insert donation message into Postgres" err))
      | (db, none) => (World.Info { w with db := db } "Saved donation", none)

/-- An `amqp.Delivery`; only its body is read. -/
structure Delivery where
  Body : String
  deriving DecidableEq

def processMessage (env : Env) (msg : Delivery) (w : World) : World × Option Error :=
  match unmarshalMap msg.Body with
  | .error err => (w, some (Error.wrap "failed to unmarshal message body" err))
  | .ok messageType =>
    if messageType.has "place_id" then processPurchaseMessage env msg.Body w
    else if messageType.has "collection_id" then processDonationMessage env msg.Body w
    else (w.Warn "Received message with unknown type", none)

/-- The loop `for msg := range msgs` of `main` over the deliveries the
channel yields before it is closed. -/
def consume (env : Env) : List Delivery → World → World
  | [], w => w
  | msg :: msgs, w =>
    match processMessage env msg w with
    | (w1, some _) => consume env msgs (w1.Error "Message processing error")
    | (w1, none) => consume env msgs w1

/-! ## A reference environment -/

/-- The helper `parseUint` of `parseRFC3339`: digits only, within a range. -/
def parseUint (s : List Char) (lo hi : Nat) : Option Nat :=
  if s.all isDigit && lo ≤ digitsValue s && digitsValue s ≤ hi then some (digitsValue s)
  else none

def isLeap (year : Nat) : Bool :=
  year % 4 == 0 && (year % 100 != 0 || year % 400 == 0)

def daysIn (month year : Nat) : Nat :=
  if month == 2 then (if isLeap year then 29 else 28)
  else if month == 4 || month == 6 || month == 9 || month == 11 then 30
  else 31

/-- Days of a common year before the first of the month. -/
def daysBefore (month : Nat) : Nat :=
  [0, 31, 59, 90, 120, 151, 181, 212, 243, 273, 304, 334].getD (month - 1) 0

/-- Days from January 1 of year 1 to the given date. -/
def daysSinceYear1 (year month day : Nat) : Int :=
  let y : Int := (year : Int) - 1
  365 * y + y / 4 - y / 100 + y / 400 + (daysBefore month : Int)
    + (if isLeap year && 2 < month then 1 else 0) + ((day : Int) - 1)

/-- The fraction of a second from the digits after the period: the first nine
count, the rest is cut off. -/
def parseNanoseconds (digits : List Char) : Nat :=
  digitsValue (digits.take 9) * 10 ^ (9 - (digits.take 9).length)

/-- The zone as the fast path reads it: `Z`, or a sign, two digits of hours
up to 23, a colon and two digits of minutes up to 59. -/
def parseZone (s : List Char) : Option Int :=
  match s with
  | ['Z'] => some 0
  | [sign, h1, h2, colon, m1, m2] =>
    if (sign == '+' || sign == '-') && colon == ':' then
      match parseUint [h1, h2] 0 23, parseUint [m1, m2] 0 59 with
      | some hr, some mm =>
        some (if sign == '-' then -(((hr * 60 + mm) * 60 : Nat) : Int)
          else (((hr * 60 + mm) * 60 : Nat) : Int))
      | _, _ => none
    else none
  | _ => none

/-- The fast path of package `time` for RFC 3339 (`parseRFC3339`): it takes
the conforming texts only. -/
def parseRFC3339 (s : List Char) : Option Time :=
  match s with
  | y1 :: y2 :: y3 :: y4 :: dash1 :: mo1 :: mo2 :: dash2 :: d1 :: d2 :: tee
      :: h1 :: h2 :: colon1 :: mi1 :: mi2 :: colon2 :: s1 :: s2 :: rest =>
    match parseUint [y1, y2, y3, y4] 0 9999, parseUint [mo1, mo2] 1 12 with
    | some year, some month =>
      match parseUint [d1, d2] 1 (daysIn month year), parseUint [h1, h2] 0 23,
        parseUint [mi1, mi2] 0 59, parseUint [s1, s2] 0 59 with
      | some day, some hour, some min, some sec =>
        if dash1 == '-' && dash2 == '-' && tee == 'T' && colon1 == ':' && colon2 == ':' then
          let frac : List Char × List Char :=
            match rest with
            | '.' :: d :: more => if isDigit d then spanDigits (d :: more) else ([], rest)
            | _ => ([], rest)
          match parseZone frac.2 with
          | some zone =>
            some { sec := daysSinceYear1 year month day * 86400
                      + ((hour * 3600 + min * 60 + sec : Nat) : Int) - zone,
                   nsec := parseNanoseconds frac.1,
                   offset := zone }
          | none => none
        else none
      | _, _, _, _ => none
    | _, _ => none
  | _ => none

/-- The helper `getnum` of package `time`: two digits, or one digit when
`fixed` is false and no second digit follows. -/
def getnum (s : List Char) (fixed : Bool) : Option (Nat × List Char) :=
  match s with
  | [] => none
  | [a] => if isDigit a && !fixed then some (a.toNat - 48, []) else none
  | a :: b :: rest =>
    if isDigit a then
      if isDigit b then some ((a.toNat - 48) * 10 + (b.toNat - 48), rest)
      else if fixed then none
      else some (a.toNat - 48, b :: rest)
    else none

/-- The zone as `time.Parse` reads it for the layout element `Z07:00`: `Z`,
or a sign, two digits of hours up to 24, a colon and two digits of minutes
up to 60. -/
def parseZoneLayout (s : List Char) : Option Int :=
  match s with
  | ['Z'] => some 0
  | [sign, h1, h2, colon, m1, m2] =>
    if (sign == '+' || sign == '-') && colon == ':' then
      match parseUint [h1, h2] 0 24, parseUint [m1, m2] 0 60 with
      | some hr, some mm =>
        some (if sign == '-' then -(((hr * 60 + mm) * 60 : Nat) : Int)
          else (((hr * 60 + mm) * 60 : Nat) : Int))
      | _, _ => none
    else none
  | _ => none

/-- The call `time.Parse(time.RFC3339, value)`. Next to the conforming texts
it takes an hour of one digit, a comma before the fraction of a second, and
a zone of 24 hours or 60 minutes. -/
def ParseRFC3339 (value : List Char) : Option Time :=
  match value with
  | y1 :: y2 :: y3 :: y4 :: '-' :: rest1 =>
    match parseUint [y1, y2, y3, y4] 0 9999, getnum rest1 true with
    | some year, some (month, '-' :: rest2) =>
      match getnum rest2 true with
      | some (day, 'T' :: rest3) =>
        match getnum rest3 false with
        | some (hour, ':' :: rest4) =>
          match getnum rest4 true with
          | some (min, ':' :: rest5) =>
            match getnum rest5 true with
            | some (sec, rest6) =>
              let frac : List Char × List Char :=
                match rest6 with
                | p :: d :: more =>
                  if (p == '.' || p == ',') && isDigit d then spanDigits (d :: more)
                  else ([], rest6)
                | _ => ([], rest6)
              match parseZoneLayout frac.2 with
              | some zone =>
                if 1 ≤ month && month ≤ 12 && 1 ≤ day && day ≤ daysIn month year
                    && hour < 24 && min < 60 && sec < 60 then
                  some { sec := daysSinceYear1 year month day * 86400
                            + ((hour * 3600 + min * 60 + sec : Nat) : Int) - zone,
                         nsec := parseNanoseconds frac.1,
                         offset := zone }
                else none
              | none => none
            | none => none
          | _ => none
        | _ => none
      | _ => none
    | _, _ => none
  | _ => none

/-- The parser behind `time.Time.UnmarshalJSON` (`parseStrictRFC3339`): the
fast path, and for a text the fast path does not take, `time.Parse`. -/
def parseStrictRFC3339 (b : List Char) : Option Time :=
  match parseRFC3339 b with
  | some t => some t
  | none => ParseRFC3339 b

/-- A store that refuses no statement, with its clock at 2024-06-01T12:00:00Z. -/
def refEnv : Env :=
  { parseTime := parseStrictRFC3339,
    execOk := fun _ _ => true,
    now := fun _ => { sec := 63852840000, nsec := 0, offset := 0 } }

/-- The store of `refEnv` during an outage: it refuses every statement. -/
def downEnv : Env := { refEnv with execOk := fun _ _ => false }

/-- The store of `refEnv` when it refuses the first statement it receives and
carries out the later ones. -/
def flakyEnv : Env := { refEnv with execOk := fun n _ => n != 0 }

/-- Both tables empty, nothing submitted, nothing logged. -/
def World.empty : World :=
  { db := { ticket_purchases := [], donations := [], execs := [] }, log := [] }

/-! ## Specification-side definitions -/

/-- The required fields of a purchase record hold non-default values. -/
def PurchaseMessage.valid (m : PurchaseMessage) : Prop :=
  m.UserToken ≠ "" ∧ m.PlaceID ≠ 0 ∧ m.EventTime.IsZero = false ∧ m.Cost ≠ 0

/-- The required fields of a donation record hold non-default values. -/
def DonationMessage.valid (m : DonationMessage) : Prop :=
  m.UserToken ≠ "" ∧ m.CollectionID ≠ 0 ∧ m.Amount ≠ 0

instance (m : PurchaseMessage) : Decidable m.valid := by
  unfold PurchaseMessage.valid; infer_instance

instance (m : DonationMessage) : Decidable m.valid := by
  unfold DonationMessage.valid; infer_instance

/-- The row of `ticket_purchases` for the record `m`: the text and the two
integers as they are, the two times as a `TIMESTAMP` column keeps them. -/
def purchaseRow (m : PurchaseMessage) : Row :=
  [("user_token", .text m.UserToken), ("place_id", .int m.PlaceID),
    ("event_time", .timestamp m.EventTime.toTimestamp),
    ("purchase_time", .timestamp m.PurchaseTime.toTimestamp), ("cost", .int m.Cost)]

/-- The row of `donations` for the record `m`. -/
def donationRow (m : DonationMessage) : Row :=
  [("user_token", .text m.UserToken), ("collection_id", .int m.CollectionID),
    ("donation_time", .timestamp m.DonationTime.toTimestamp), ("amount", .int m.Amount)]

/-- An insert of the purchase `m` that leaves the column `purchase_time` out;
the service never submits it. -/
def purchaseInsertWithoutTime (m : PurchaseMessage) : Stmt :=
  { table := "ticket_purchases",
    columns := ["user_token", "place_id", "event_time", "cost"],
    values := [1, 2, 3, 4],
    args := [.text m.UserToken, .int m.PlaceID, .timestamp m.EventTime, .int m.Cost] }

/-- Whether the store carries out the insert of the purchase `m` as its
statement number `n`: it does not refuse the statement and every value fits
its column. -/
def purchaseOk (env : Env) (n : Nat) (m : PurchaseMessage) : Bool :=
  env.execOk n (purchaseInsert m) && (textOk m.UserToken && int4Ok m.PlaceID && int4Ok m.Cost)

/-- Whether the store carries out the insert of the donation `m` as its
statement number `n`. -/
def donationOk (env : Env) (n : Nat) (m : DonationMessage) : Bool :=
  env.execOk n (donationInsert m)
    && (textOk m.UserToken && int4Ok m.CollectionID && int4Ok m.Amount)

/-- Whether a scanned value is an object. -/
def JSON.isObject : JSON → Bool
  | .object _ => true
  | _ => false

/-- Whether a scanned value is the literal `null`. -/
def JSON.isNull : JSON → Bool
  | .null => true
  | _ => false

/-- The field value `x` is what the payload value `given` decodes to, or the
initial value `init` when the payload gives none. -/
def fieldFrom {α : Type} (dec : JSON → α → Except Error α) (init : α)
    (given : Option JSON) (x : α) : Prop :=
  match given with
  | none => x = init
  | some v => v.isNull = false ∧ dec v init = .ok x

/-- The value a payload gives to the field tagged `name`: that of the last
member whose key selects the field. A member whose value is `null` does not
count: it leaves the field as it is. -/
def payloadField (members : List (List Char × JSON)) (name : String) : Option JSON :=
  members.foldl
    (fun acc kv => if keyMatches (unquote kv.1) name && !kv.2.isNull then some kv.2 else acc)
    none

/-! ## Test messages -/

/-- The body `{"user_token":"u1","place_id":42,"event_time":"2024-01-01T10:00:00Z","cost":500}`. -/
def purchaseBody : String :=
  "\x7b\"user_token\":\"u1\",\"place_id\":42,\"event_time\":\"2024-01-01T10:00:00Z\",\"cost\":500\x7d"

/-- The record `purchaseBody` decodes to; 2024-01-01T10:00:00Z is second
63839700000 of the calendar. -/
def purchaseRecord : PurchaseMessage :=
  { UserToken := "u1", PlaceID := 42,
    EventTime := { sec := 63839700000, nsec := 0, offset := 0 },
    PurchaseTime := Time.zero, Cost := 500 }

/-- The body `{"user_token":"u2","collection_id":7,"amount":100}`. -/
def donationBody : String :=
  "\x7b\"user_token\":\"u2\",\"collection_id\":7,\"amount\":100\x7d"

def donationRecord : DonationMessage :=
  { UserToken := "u2", CollectionID := 7, DonationTime := Time.zero, Amount := 100 }

/-- The body `{"place_id":42,"cost":500}`. -/
def noTokenBody : String := "\x7b\"place_id\":42,\"cost\":500\x7d"

/-- The body `{"user_token":"u1","place_id":42,"event_time":"2024-01-01T10:00:00Z",
"purchase_time":"2023-12-24T18:30:00.25Z","cost":500}`: all five fields,
both times in UTC. -/
def fullPurchaseBody : String :=
  "\x7b\"user_token\":\"u1\",\"place_id\":42,\"event_time\":\"2024-01-01T10:00:00Z\",\"purchase_time\":\"2023-12-24T18:30:00.25Z\",\"cost\":500\x7d"

/-- The members of `fullPurchaseBody` as the scanner returns them. -/
def fullPurchaseMembers : List (List Char × JSON) :=
  [("user_token".toList, JSON.string "u1".toList),
   ("place_id".toList, JSON.number "42".toList),
   ("event_time".toList, JSON.string "2024-01-01T10:00:00Z".toList),
   ("purchase_time".toList, JSON.string "2023-12-24T18:30:00.25Z".toList),
   ("cost".toList, JSON.number "500".toList)]

/-- The record `fullPurchaseBody` decodes to. -/
def fullPurchaseRecord : PurchaseMessage :=
  { UserToken := "u1", PlaceID := 42,
    EventTime := { sec := 63839700000, nsec := 0, offset := 0 },
    PurchaseTime := { sec := 63839039400, nsec := 250000000, offset := 0 }, Cost := 500 }

/-- The body `{"user_token":"u1","place_id":42,
"event_time":"2024-01-01T10:00:00+01:00",
"purchase_time":"2023-12-24T18:30:00.123456789Z","cost":500}`: the event time
is written with a zone, the purchase time with nine digits after the period. -/
def zonedPurchaseBody : String :=
  "\x7b\"user_token\":\"u1\",\"place_id\":42,\"event_time\":\"2024-01-01T10:00:00+01:00\",\"purchase_time\":\"2023-12-24T18:30:00.123456789Z\",\"cost\":500\x7d"

/-- The members of `zonedPurchaseBody` as the scanner returns them. -/
def zonedPurchaseMembers : List (List Char × JSON) :=
  [("user_token".toList, JSON.string "u1".toList),
   ("place_id".toList, JSON.number "42".toList),
   ("event_time".toList, JSON.string "2024-01-01T10:00:00+01:00".toList),
   ("purchase_time".toList, JSON.string "2023-12-24T18:30:00.123456789Z".toList),
   ("cost".toList, JSON.number "500".toList)]

/-- The record `zonedPurchaseBody` decodes to: the event is at 09:00:00 UTC. -/
def zonedPurchaseRecord : PurchaseMessage :=
  { UserToken := "u1", PlaceID := 42,
    EventTime := { sec := 63839696400, nsec := 0, offset := 3600 },
    PurchaseTime := { sec := 63839039400, nsec := 123456789, offset := 0 }, Cost := 500 }

/-- The body `null`. -/
def nullBody : String := "null"

/-- The body `[1,2]`: well-formed JSON, but an array. -/
def arrayBody : String := "[1,2]"

/-- The body `{"place_id":`: cut off after the colon. -/
def truncatedBody : String := "\x7b\"place_id\":"

/-- The body `{"place_id":"42","cost":500}`: `place_id` is a string. -/
def stringPlaceBody : String := "\x7b\"place_id\":\"42\",\"cost\":500\x7d"

/-- The body `{"collection_id":7,"amount":"100"}`: `amount` is a string. -/
def stringAmountBody : String := "\x7b\"collection_id\":7,\"amount\":\"100\"\x7d"

/-- The body `{"place_id":1,"collection_id":2}`. -/
def bothKeysBody : String := "\x7b\"place_id\":1,\"collection_id\":2\x7d"

/-- The insert a delivery asks for. -/
inductive Request where
  | purchase (m : PurchaseMessage)
  | donation (m : DonationMessage)
  deriving DecidableEq

/-- The stages of the specification before the persister: the classifier
picks the record kind from the keys, the decoder of that kind reads the
record, the validator admits it. `none` when a stage drops the message. -/
def request (env : Env) (msg : Delivery) : Option Request :=
  match unmarshalMap msg.Body with
  | .error _ => none
  | .ok messageType =>
    if messageType.has "place_id" then
      match unmarshalPurchase env msg.Body with
      | .error _ => none
      | .ok m => if m.valid then some (Request.purchase m) else none
    else if messageType.has "collection_id" then
      match unmarshalDonation env msg.Body with
      | .error _ => none
      | .ok m => if m.valid then some (Request.donation m) else none
    else none

/-- The rows a sequence of deliveries leaves in `ticket_purchases` and in
`donations`, in delivery order, when the store has seen `n` statements
before: the rows of the deliveries that ask for an insert the store carries
out. -/
def persisted (env : Env) : Nat → List Delivery → List Row × List Row
  | _, [] => ([], [])
  | n, msg :: msgs =>
    match request env msg with
    | none => persisted env n msgs
    | some (Request.purchase m) =>
      if purchaseOk env n m then
        (purchaseRow m :: (persisted env (n + 1) msgs).1, (persisted env (n + 1) msgs).2)
      else persisted env (n + 1) msgs
    | some (Request.donation m) =>
      if donationOk env n m then
        ((persisted env (n + 1) msgs).1, donationRow m :: (persisted env (n + 1) msgs).2)
      else persisted env (n + 1) msgs

/-- One pass of the loop body of `main`: the delivery is processed and an
error it returns is logged. -/
def iteration (env : Env) (w : World) (msg : Delivery) : World :=
  match processMessage env msg w with
  | (w1, some _) => w1.Error "Message processing error"
  | (w1, none) => w1

/-- Three deliveries: a purchase without `user_token`, the donation of user
`u2`, the purchase of user `u1`. -/
def sampleDeliveries : List Delivery :=
  [{ Body := noTokenBody }, { Body := donationBody }, { Body := purchaseBody }]

/-! ## The scanner has enough fuel -/

theorem skipSpace_length_le (cs : List Char) : (skipSpace cs).length ≤ cs.length := by
  induction cs with
  | nil => simp [skipSpace]
  | cons c cs ih =>
    unfold skipSpace
    split
    · simp only [List.length_cons]; omega
    · simp

theorem skipSpace_cons_length {cs : List Char} {c : Char} {rest : List Char}
    (h : skipSpace cs = c :: rest) : rest.length < cs.length := by
  have := skipSpace_length_le cs
  rw [h] at this
  simpa using this

theorem map_eq_some_snd {α β γ : Type} {g : α × β → γ × β} {x : Option (α × β)}
    {a : γ} {b : β} (h : x.map g = some (a, b)) (hg : ∀ r, (g r).2 = r.2) :
    ∃ a0, x = some (a0, b) := by
  cases x with
  | none => simp at h
  | some r =>
    simp only [Option.map_some', Option.some.injEq] at h
    have h2 := hg r
    rw [h] at h2
    obtain ⟨r1, r2⟩ := r
    simp only at h2
    exact ⟨r1, by rw [h2]⟩

theorem scanString_length_aux (n : Nat) : ∀ (cs : List Char), cs.length ≤ n →
    ∀ raw rest, scanString cs = some (raw, rest) → rest.length < cs.length := by
  induction n with
  | zero =>
    intro cs hlen raw rest h
    cases cs with
    | nil => simp [scanString] at h
    | cons c cs => simp at hlen
  | succ n ih =>
    intro cs hlen raw rest h
    unfold scanString at h
    split at h
    · simp at h
    · rename_i c cs
      simp only [List.length_cons] at hlen ⊢
      split_ifs at h
      · simp only [Option.some.injEq, Prod.mk.injEq] at h
        rw [← h.2]; omega
      · split at h
        · simp at h
        · rename_i e cs1
          simp only [List.length_cons] at hlen ⊢
          split_ifs at h
          · split at h
            · rename_i a b c2 d cs2
              simp only [List.length_cons] at hlen ⊢
              split_ifs at h
              obtain ⟨r, hr⟩ := map_eq_some_snd h (fun _ => rfl)
              have := ih cs2 (by omega) _ _ hr
              omega
            · simp at h
          · obtain ⟨r, hr⟩ := map_eq_some_snd h (fun _ => rfl)
            have := ih cs1 (by omega) _ _ hr
            omega
      · obtain ⟨r, hr⟩ := map_eq_some_snd h (fun _ => rfl)
        have := ih cs (by omega) _ _ hr
        omega

theorem scanString_length {cs raw rest : List Char} (h : scanString cs = some (raw, rest)) :
    rest.length < cs.length :=
  scanString_length_aux cs.length cs (Nat.le_refl _) raw rest h

theorem spanDigits_length (cs : List Char) : (spanDigits cs).2.length ≤ cs.length := by
  induction cs with
  | nil => simp [spanDigits]
  | cons c cs ih =>
    unfold spanDigits
    split_ifs
    · simp only [List.length_cons]; omega
    · simp

theorem scanIntPart_length {cs ip rest : List Char} (h : scanIntPart cs = some (ip, rest)) :
    rest.length < cs.length := by
  unfold scanIntPart at h
  split at h
  · simp at h
  · rename_i c cs
    have := spanDigits_length cs
    split_ifs at h
    · simp only [Option.some.injEq, Prod.mk.injEq] at h
      rw [← h.2]; simp
    · simp only [Option.some.injEq, Prod.mk.injEq] at h
      rw [← h.2]; simp only [List.length_cons]; omega

theorem scanFraction_length {cs fp rest : List Char} (h : scanFraction cs = some (fp, rest)) :
    rest.length ≤ cs.length := by
  unfold scanFraction at h
  split at h
  · rename_i cs1
    have := spanDigits_length cs1
    split at h
    · simp at h
    · rename_i ds r hs
      simp only [Option.some.injEq, Prod.mk.injEq] at h
      rw [hs] at this
      rw [← h.2]; simp only [List.length_cons]
      simp only at this
      omega
  · simp only [Option.some.injEq, Prod.mk.injEq] at h
    rw [← h.2]

theorem scanExponent_length {cs ep rest : List Char} (h : scanExponent cs = some (ep, rest)) :
    rest.length ≤ cs.length := by
  unfold scanExponent at h
  split at h
  · simp only [Option.some.injEq, Prod.mk.injEq] at h
    rw [← h.2]
  · rename_i c cs1
    split_ifs at h
    · split at h
      · simp at h
      · rename_i s cs2
        split_ifs at h
        · have := spanDigits_length cs2
          split at h
          · simp at h
          · rename_i ds r hs
            simp only [Option.some.injEq, Prod.mk.injEq] at h
            rw [hs] at this
            rw [← h.2]; simp only [List.length_cons]
            simp only at this
            omega
        · have := spanDigits_length (s :: cs2)
          split at h
          · simp at h
          · rename_i ds r hs
            simp only [Option.some.injEq, Prod.mk.injEq] at h
            rw [hs] at this
            rw [← h.2]; simp only [List.length_cons] at this ⊢
            omega
    · simp only [Option.some.injEq, Prod.mk.injEq] at h
      rw [← h.2]

theorem scanSign_length (cs : List Char) : (scanSign cs).2.length ≤ cs.length := by
  unfold scanSign
  split
  · simp
  · simp

theorem scanNumber_length {cs lit rest : List Char} (h : scanNumber cs = some (lit, rest)) :
    rest.length < cs.length := by
  unfold scanNumber at h
  have l0 := scanSign_length cs
  split at h
  · simp at h
  · rename_i ip r1 h1
    split at h
    · simp at h
    · rename_i fp r2 h2
      split at h
      · simp at h
      · rename_i ep r3 h3
        simp only [Option.some.injEq, Prod.mk.injEq] at h
        have l1 := scanIntPart_length h1
        have l2 := scanFraction_length h2
        have l3 := scanExponent_length h3
        rw [← h.2]
        omega

theorem dropLiteral_length (lit : List Char) : ∀ {cs rest : List Char},
    dropLiteral lit cs = some rest → rest.length ≤ cs.length := by
  induction lit with
  | nil => intro cs rest h; simp only [dropLiteral, Option.some.injEq] at h; rw [h]
  | cons l ls ih =>
    intro cs rest h
    cases cs with
    | nil => simp [dropLiteral] at h
    | cons c cs =>
      simp only [dropLiteral] at h
      split_ifs at h
      have := ih h
      simp only [List.length_cons]; omega

theorem scan_length (fuel : Nat) :
    (∀ d cs v rest, scanValue fuel d cs = some (v, rest) → rest.length < cs.length)
    ∧ (∀ d cs vs rest, scanElems fuel d cs = some (vs, rest) → rest.length < cs.length)
    ∧ (∀ d cs ms rest, scanMembers fuel d cs = some (ms, rest) → rest.length < cs.length) := by
  induction fuel with
  | zero => simp [scanValue, scanElems, scanMembers]
  | succ f ih =>
    obtain ⟨ihV, ihE, ihM⟩ := ih
    refine ⟨?_, ?_, ?_⟩
    · intro d cs v rest h
      rw [scanValue] at h
      split at h
      · simp at h
      · rename_i c rest0 hsk
        have l0 := skipSpace_cons_length hsk
        split_ifs at h
        · split at h
          · simp at h
          · rename_i c1 rest1 hsk1
            have l1 := skipSpace_cons_length hsk1
            split_ifs at h
            · simp only [Option.some.injEq, Prod.mk.injEq] at h
              rw [← h.2]; omega
            · obtain ⟨r, hr⟩ := map_eq_some_snd h (fun _ => rfl)
              have := ihM _ _ _ _ hr
              simp only [List.length_cons] at this
              omega
        · split at h
          · simp at h
          · rename_i c1 rest1 hsk1
            have l1 := skipSpace_cons_length hsk1
            split_ifs at h
            · simp only [Option.some.injEq, Prod.mk.injEq] at h
              rw [← h.2]; omega
            · obtain ⟨r, hr⟩ := map_eq_some_snd h (fun _ => rfl)
              have := ihE _ _ _ _ hr
              simp only [List.length_cons] at this
              omega
        · obtain ⟨r, hr⟩ := map_eq_some_snd h (fun _ => rfl)
          have := scanString_length hr
          omega
        · obtain ⟨r, hr⟩ := map_eq_some_snd h (fun _ => rfl)
          have := scanNumber_length hr
          simp only [List.length_cons] at this
          omega
        · simp only [Option.map_eq_some'] at h
          obtain ⟨r, hr, hrr⟩ := h
          have := dropLiteral_length _ hr
          simp only [Prod.mk.injEq] at hrr
          rw [← hrr.2]; omega
        · simp only [Option.map_eq_some'] at h
          obtain ⟨r, hr, hrr⟩ := h
          have := dropLiteral_length _ hr
          simp only [Prod.mk.injEq] at hrr
          rw [← hrr.2]; omega
        · simp only [Option.map_eq_some'] at h
          obtain ⟨r, hr, hrr⟩ := h
          have := dropLiteral_length _ hr
          simp only [Prod.mk.injEq] at hrr
          rw [← hrr.2]; omega
    · intro d cs vs rest h
      rw [scanElems] at h
      split at h
      · simp at h
      · rename_i v rest0 hv
        have l0 := ihV _ _ _ _ hv
        split at h
        · simp at h
        · rename_i c rest1 hsk
          have l1 := skipSpace_cons_length hsk
          split_ifs at h
          · obtain ⟨r, hr⟩ := map_eq_some_snd h (fun _ => rfl)
            have := ihE _ _ _ _ hr
            omega
          · simp only [Option.some.injEq, Prod.mk.injEq] at h
            rw [← h.2]; omega
    · intro d cs ms rest h
      rw [scanMembers] at h
      split at h
      · simp at h
      · rename_i q rest0 hsk0
        have l0 := skipSpace_cons_length hsk0
        split_ifs at h
        split at h
        · simp at h
        · rename_i key rest1 hkey
          have l1 := scanString_length hkey
          split at h
          · simp at h
          · rename_i colon rest2 hsk2
            have l2 := skipSpace_cons_length hsk2
            split_ifs at h
            split at h
            · simp at h
            · rename_i v rest3 hv
              have l3 := ihV _ _ _ _ hv
              split at h
              · simp at h
              · rename_i c rest4 hsk4
                have l4 := skipSpace_cons_length hsk4
                split_ifs at h
                · obtain ⟨r, hr⟩ := map_eq_some_snd h (fun _ => rfl)
                  have := ihM _ _ _ _ hr
                  omega
                · simp only [Option.some.injEq, Prod.mk.injEq] at h
                  rw [← h.2]; omega

theorem scan_fuel (f : Nat) :
    (∀ d cs, 2 * cs.length + 1 ≤ f → scanValue (f + 1) d cs = scanValue f d cs)
    ∧ (∀ d cs, 2 * cs.length + 2 ≤ f → scanElems (f + 1) d cs = scanElems f d cs)
    ∧ (∀ d cs, 2 * cs.length + 1 ≤ f → scanMembers (f + 1) d cs = scanMembers f d cs) := by
  induction f with
  | zero =>
    refine ⟨?_, ?_, ?_⟩ <;> intro d cs h <;> omega
  | succ f ih =>
    obtain ⟨ihV, ihE, ihM⟩ := ih
    refine ⟨?_, ?_, ?_⟩
    · intro d cs hf
      conv_lhs => rw [scanValue]
      conv_rhs => rw [scanValue]
      cases hsk : skipSpace cs with
      | nil => rfl
      | cons c rest0 =>
        have l0 := skipSpace_cons_length hsk
        simp only []
        cases hsk1 : skipSpace rest0 with
        | nil => rfl
        | cons c1 rest1 =>
          have l1 := skipSpace_cons_length hsk1
          have e1 : scanMembers (f + 1) (d + 1) (c1 :: rest1)
              = scanMembers f (d + 1) (c1 :: rest1) :=
            ihM _ _ (by simp only [List.length_cons]; omega)
          have e2 : scanElems (f + 1) (d + 1) (c1 :: rest1)
              = scanElems f (d + 1) (c1 :: rest1) :=
            ihE _ _ (by simp only [List.length_cons]; omega)
          simp only [e1, e2]
    · intro d cs hf
      conv_lhs => rw [scanElems]
      conv_rhs => rw [scanElems]
      rw [ihV d cs (by omega)]
      cases hv : scanValue f d cs with
      | none => rfl
      | some r =>
        obtain ⟨v, rest0⟩ := r
        have l0 := (scan_length f).1 _ _ _ _ hv
        simp only []
        cases hsk : skipSpace rest0 with
        | nil => rfl
        | cons c rest1 =>
          have l1 := skipSpace_cons_length hsk
          simp only []
          rw [ihE d rest1 (by omega)]
    · intro d cs hf
      conv_lhs => rw [scanMembers]
      conv_rhs => rw [scanMembers]
      cases hsk : skipSpace cs with
      | nil => rfl
      | cons q rest0 =>
        have l0 := skipSpace_cons_length hsk
        simp only []
        cases hkey : scanString rest0 with
        | none => rfl
        | some r =>
          obtain ⟨key, rest1⟩ := r
          have l1 := scanString_length hkey
          simp only []
          cases hsk2 : skipSpace rest1 with
          | nil => rfl
          | cons colon rest2 =>
            have l2 := skipSpace_cons_length hsk2
            simp only []
            rw [ihV d rest2 (by omega)]
            cases hv : scanValue f d rest2 with
            | none => rfl
            | some r =>
              obtain ⟨v, rest3⟩ := r
              have l3 := (scan_length f).1 _ _ _ _ hv
              simp only []
              cases hsk4 : skipSpace rest3 with
              | nil => rfl
              | cons c rest4 =>
                have l4 := skipSpace_cons_length hsk4
                simp only []
                rw [ihM d rest4 (by omega)]

/-- The scanner does not run out of fuel: above twice the length of the input
plus one, more fuel does not change the result. -/
theorem scanValue_fuel_irrelevant (d : Nat) (cs : List Char) (k : Nat) :
    scanValue (2 * cs.length + 1 + k) d cs = scanValue (2 * cs.length + 1) d cs := by
  induction k with
  | zero => rfl
  | succ k ih =>
    rw [← ih]
    exact (scan_fuel (2 * cs.length + 1 + k)).1 d cs (by omega)

/-- The body is scanned with enough fuel: any larger amount gives the same
result as the amount `parseJSON` uses. -/
theorem parseJSON_fuel_irrelevant (body : String) (k : Nat) :
    scanValue (2 * body.length + 2 + k) 0 body.toList
      = scanValue (2 * body.length + 2) 0 body.toList := by
  have h1 := scanValue_fuel_irrelevant 0 body.toList (1 + k)
  have h2 := scanValue_fuel_irrelevant 0 body.toList 1
  have hl : body.toList.length = body.length := rfl
  rw [hl] at h1 h2
  rw [show 2 * body.length + 2 + k = 2 * body.length + 1 + (1 + k) by omega, h1,
    show 2 * body.length + 2 = 2 * body.length + 1 + 1 by omega, h2]

theorem unquoteAux_nil (f : Nat) : unquoteAux f [] = [] := by
  cases f <;> rfl

theorem unquoteAux_fuel (f : Nat) : ∀ cs : List Char, cs.length ≤ f →
    unquoteAux (f + 1) cs = unquoteAux f cs := by
  induction f with
  | zero =>
    intro cs h
    cases cs with
    | nil => simp [unquoteAux]
    | cons c cs => simp at h
  | succ f ih =>
    intro cs h
    cases cs with
    | nil => simp [unquoteAux]
    | cons c cs =>
      simp only [List.length_cons] at h
      simp only [unquoteAux]
      cases cs with
      | nil => simp only [unquoteAux_nil]
      | cons e cs1 =>
        simp only [List.length_cons] at h
        have e0 := ih (e :: cs1) (by simp only [List.length_cons]; omega)
        have e1 := ih cs1 (by omega)
        simp only [e0, e1]
        cases cs1 with
        | nil => rfl
        | cons a cs2 =>
          cases cs2 with
          | nil => rfl
          | cons b cs3 =>
            cases cs3 with
            | nil => rfl
            | cons c2 cs4 =>
              cases cs4 with
              | nil => rfl
              | cons d2 cs5 =>
                simp only [List.length_cons] at h
                have e2 := ih cs5 (by omega)
                have e3 := ih (cs5.drop 6) (by simp only [List.length_drop]; omega)
                simp only [e2, e3]

/-- Unquoting does not run out of fuel either. -/
theorem unquoteAux_fuel_irrelevant (raw : List Char) (k : Nat) :
    unquoteAux (raw.length + k) raw = unquoteAux raw.length raw := by
  induction k with
  | zero => rfl
  | succ k ih =>
    rw [← ih]
    exact unquoteAux_fuel (raw.length + k) raw (by omega)

/-! ## Lemmas on the store and on validation -/

theorem purchase_check_iff (m : PurchaseMessage) :
    (m.UserToken == "" || m.PlaceID == 0 || m.EventTime.IsZero || m.Cost == 0) = true
      ↔ ¬ m.valid := by
  unfold PurchaseMessage.valid
  cases hz : m.EventTime.IsZero <;> simp [hz]
  tauto

theorem donation_check_iff (m : DonationMessage) :
    (m.UserToken == "" || m.CollectionID == 0 || m.Amount == 0) = true ↔ ¬ m.valid := by
  unfold DonationMessage.valid
  simp
  tauto

theorem buildRow_purchaseInsert (m : PurchaseMessage) (now : Time) :
    buildRow ticket_purchases_columns (purchaseInsert m) now
      = if textOk m.UserToken && int4Ok m.PlaceID && int4Ok m.Cost then some (purchaseRow m)
        else none := by
  have b1 : (purchaseInsert m).bound "user_token" = some (.text m.UserToken) := rfl
  have b2 : (purchaseInsert m).bound "place_id" = some (.int m.PlaceID) := rfl
  have b3 : (purchaseInsert m).bound "event_time" = some (.timestamp m.EventTime) := rfl
  have b4 : (purchaseInsert m).bound "purchase_time" = some (.timestamp m.PurchaseTime) := rfl
  have b5 : (purchaseInsert m).bound "cost" = some (.int m.Cost) := rfl
  simp only [ticket_purchases_columns, buildRow, columnValue, b1, b2, b3, b4, b5,
    SqlType.store, purchaseRow]
  cases textOk m.UserToken <;> cases int4Ok m.PlaceID <;> cases int4Ok m.Cost <;> rfl

theorem buildRow_donationInsert (m : DonationMessage) (now : Time) :
    buildRow donations_columns (donationInsert m) now
      = if textOk m.UserToken && int4Ok m.CollectionID && int4Ok m.Amount then
          some (donationRow m)
        else none := by
  have b1 : (donationInsert m).bound "user_token" = some (.text m.UserToken) := rfl
  have b2 : (donationInsert m).bound "collection_id" = some (.int m.CollectionID) := rfl
  have b3 : (donationInsert m).bound "donation_time" = some (.timestamp m.DonationTime) := rfl
  have b4 : (donationInsert m).bound "amount" = some (.int m.Amount) := rfl
  simp only [donations_columns, buildRow, columnValue, b1, b2, b3, b4,
    SqlType.store, donationRow]
  cases textOk m.UserToken <;> cases int4Ok m.CollectionID <;> cases int4Ok m.Amount <;> rfl

theorem Exec_purchaseInsert (env : Env) (db : Pool) (m : PurchaseMessage) :
    db.Exec env (purchaseInsert m) =
      if purchaseOk env db.execs.length m then
        ({ ticket_purchases := db.ticket_purchases ++ [purchaseRow m],
           donations := db.donations,
           execs := db.execs ++ [purchaseInsert m] }, none)
      else ({ db with execs := db.execs ++ [purchaseInsert m] }, some Error.exec) := by
  have h1 : ((purchaseInsert m).table == "ticket_purchases"
      && (purchaseInsert m).fits ticket_purchases_columns) = true := by rfl
  have h2 : ((purchaseInsert m).table == "donations"
      && (purchaseInsert m).fits donations_columns) = false := by rfl
  unfold Pool.Exec purchaseOk
  simp only [Stmt.rowFor, h1, h2, buildRow_purchaseInsert, if_true, Bool.false_eq_true,
    if_false]
  cases env.execOk db.execs.length (purchaseInsert m)
    <;> cases (textOk m.UserToken && int4Ok m.PlaceID && int4Ok m.Cost) <;> rfl

theorem Exec_donationInsert (env : Env) (db : Pool) (m : DonationMessage) :
    db.Exec env (donationInsert m) =
      if donationOk env db.execs.length m then
        ({ ticket_purchases := db.ticket_purchases,
           donations := db.donations ++ [donationRow m],
           execs := db.execs ++ [donationInsert m] }, none)
      else ({ db with execs := db.execs ++ [donationInsert m] }, some Error.exec) := by
  have h1 : ((donationInsert m).table == "ticket_purchases"
      && (donationInsert m).fits ticket_purchases_columns) = false := by rfl
  have h2 : ((donationInsert m).table == "donations"
      && (donationInsert m).fits donations_columns) = true := by rfl
  unfold Pool.Exec donationOk
  simp only [Stmt.rowFor, h1, h2, buildRow_donationInsert, if_true, Bool.false_eq_true,
    if_false]
  cases env.execOk db.execs.length (donationInsert m)
    <;> cases (textOk m.UserToken && int4Ok m.CollectionID && int4Ok m.Amount) <;> rfl

/-- What `processPurchaseMessage` does with a body that decodes to `m`. -/
theorem processPurchaseMessage_ok (env : Env) (body : String) (w : World)
    (m : PurchaseMessage) (h : unmarshalPurchase env body = .ok m) :
    processPurchaseMessage env body w =
      if m.valid then
        if purchaseOk env w.db.execs.length m then
          (World.Info { w with db :=
              { ticket_purchases := w.db.ticket_purchases ++ [purchaseRow m],
                donations := w.db.donations,
                execs := w.db.execs ++ [purchaseInsert m] } } "Saved ticket purchase", none)
        else
          ({ w with db := { w.db with execs := w.db.execs ++ [purchaseInsert m] } },
            some (Error.wrap "failed to insert purchase message into Postgres" Error.exec))
      else (w.Warn "Received invalid purchase message", none) := by
  unfold processPurchaseMessage
  rw [h]
  by_cases hv : m.valid
  · have hc : (m.UserToken == "" || m.PlaceID == 0 || m.EventTime.IsZero || m.Cost == 0)
        = false := by
      rw [← Bool.not_eq_true, purchase_check_iff]; exact not_not.2 hv
    simp only [hc, hv, if_true, Exec_purchaseInsert]
    by_cases hx : purchaseOk env w.db.execs.length m = true
    · simp [hx]
    · simp [hx]
  · have hc : (m.UserToken == "" || m.PlaceID == 0 || m.EventTime.IsZero || m.Cost == 0)
        = true := (purchase_check_iff m).2 hv
    simp only [hc, hv, if_true, if_false]

/-- What `processDonationMessage` does with a body that decodes to `m`. -/
theorem processDonationMessage_ok (env : Env) (body : String) (w : World)
    (m : DonationMessage) (h : unmarshalDonation env body = .ok m) :
    processDonationMessage env body w =
      if m.valid then
        if donationOk env w.db.execs.length m then
          (World.Info { w with db :=
              { ticket_purchases := w.db.ticket_purchases,
                donations := w.db.donations ++ [donationRow m],
                execs := w.db.execs ++ [donationInsert m] } } "Saved donation", none)
        else
          ({ w with db := { w.db with execs := w.db.execs ++ [donationInsert m] } },
            some (Error.wrap "failed to insert donation message into Postgres" Error.exec))
      else (w.Warn "Received invalid donation message", none) := by
  unfold processDonationMessage
  rw [h]
  by_cases hv : m.valid
  · have hc : (m.UserToken == "" || m.CollectionID == 0 || m.Amount == 0) = false := by
      rw [← Bool.not_eq_true, donation_check_iff]; exact not_not.2 hv
    simp only [hc, hv, if_true, Exec_donationInsert]
    by_cases hx : donationOk env w.db.execs.length m = true
    · simp [hx]
    · simp [hx]
  · have hc : (m.UserToken == "" || m.CollectionID == 0 || m.Amount == 0) = true :=
      (donation_check_iff m).2 hv
    simp only [hc, hv, if_true, if_false]


theorem GoMap.has_iff (m : GoMap) (key : String) :
    m.has key = true ↔ ∃ v, (key, v) ∈ m := by
  unfold GoMap.has
  rw [List.any_eq_true]
  constructor
  · rintro ⟨⟨k, v⟩, hmem, hkv⟩
    have hkey : k = key := by simpa using hkv
    exact ⟨v, hkey ▸ hmem⟩
  · rintro ⟨v, hmem⟩
    exact ⟨(key, v), hmem, by simp⟩

theorem GoMap.has_eq_false_iff (m : GoMap) (key : String) :
    m.has key = false ↔ ¬ ∃ v, (key, v) ∈ m := by
  rw [← Bool.not_eq_true, GoMap.has_iff]

/-- What `processMessage` does with a body that decodes into the map. -/
theorem processMessage_ok (env : Env) (msg : Delivery) (w : World) (messageType : GoMap)
    (h : unmarshalMap msg.Body = .ok messageType) :
    processMessage env msg w =
      if messageType.has "place_id" then processPurchaseMessage env msg.Body w
      else if messageType.has "collection_id" then processDonationMessage env msg.Body w
      else (w.Warn "Received message with unknown type", none) := by
  unfold processMessage
  rw [h]

/-- What `processMessage` does with a body that does not decode into the map. -/
theorem processMessage_error (env : Env) (msg : Delivery) (w : World) (err : Error)
    (h : unmarshalMap msg.Body = .error err) :
    processMessage env msg w
      = (w, some (Error.wrap "failed to unmarshal message body" err)) := by
  unfold processMessage
  rw [h]

/-- The store model applies a column default when the statement leaves the
column out: an insert into `ticket_purchases` without `purchase_time` stores
the time of the insertion there. -/
theorem buildRow_default_purchase_time (m : PurchaseMessage) (now : Time)
    (h1 : textOk m.UserToken = true) (h2 : int4Ok m.PlaceID = true)
    (h3 : int4Ok m.Cost = true) :
    buildRow ticket_purchases_columns (purchaseInsertWithoutTime m) now
      = some [("user_token", .text m.UserToken), ("place_id", .int m.PlaceID),
          ("event_time", .timestamp m.EventTime.toTimestamp),
          ("purchase_time", .timestamp now), ("cost", .int m.Cost)] := by
  have b1 : (purchaseInsertWithoutTime m).bound "user_token" = some (.text m.UserToken) := rfl
  have b2 : (purchaseInsertWithoutTime m).bound "place_id" = some (.int m.PlaceID) := rfl
  have b3 : (purchaseInsertWithoutTime m).bound "event_time"
      = some (.timestamp m.EventTime) := rfl
  have b4 : (purchaseInsertWithoutTime m).bound "purchase_time" = none := rfl
  have b5 : (purchaseInsertWithoutTime m).bound "cost" = some (.int m.Cost) := rfl
  simp only [ticket_purchases_columns, buildRow, columnValue, b1, b2, b3, b4, b5,
    SqlType.store, h1, h2, h3, if_true]

/-- The store after one delivery: untouched when the delivery asks for no
insert, else the store after the one `Exec` call of that insert. -/
theorem processMessage_db (env : Env) (msg : Delivery) (w : World) :
    (processMessage env msg w).1.db =
      match request env msg with
      | none => w.db
      | some (Request.purchase m) => (w.db.Exec env (purchaseInsert m)).1
      | some (Request.donation m) => (w.db.Exec env (donationInsert m)).1 := by
  unfold request
  cases hm : unmarshalMap msg.Body with
  | error err => rw [processMessage_error env msg w err hm]
  | ok messageType =>
    rw [processMessage_ok env msg w messageType hm]
    by_cases hp : messageType.has "place_id" = true
    · simp only [hp, if_true]
      cases hd : unmarshalPurchase env msg.Body with
      | error err => simp [processPurchaseMessage, hd]
      | ok m =>
        rw [processPurchaseMessage_ok env msg.Body w m hd]
        by_cases hv : m.valid
        · simp only [hv, if_true, Exec_purchaseInsert]
          by_cases hx : purchaseOk env w.db.execs.length m = true
          · simp [hx, World.Info]
          · simp [hx]
        · simp [hv, World.Warn]
    · simp only [hp, if_false]
      by_cases hc : messageType.has "collection_id" = true
      · simp only [hc, if_true]
        cases hd : unmarshalDonation env msg.Body with
        | error err => simp [processDonationMessage, hd]
        | ok m =>
          rw [processDonationMessage_ok env msg.Body w m hd]
          by_cases hv : m.valid
          · simp only [hv, if_true, Exec_donationInsert]
            by_cases hx : donationOk env w.db.execs.length m = true
            · simp [hx, World.Info]
            · simp [hx]
          · simp [hv, World.Warn]
      · simp [hc, World.Warn]

theorem iteration_db (env : Env) (w : World) (msg : Delivery) :
    (iteration env w msg).db = (processMessage env msg w).1.db := by
  unfold iteration
  rcases hr : processMessage env msg w with ⟨w1, _ | err⟩
  · rfl
  · rfl

theorem consume_eq_foldl (env : Env) (msgs : List Delivery) (w : World) :
    consume env msgs w = msgs.foldl (iteration env) w := by
  induction msgs generalizing w with
  | nil => rfl
  | cons msg msgs ih =>
    rw [consume, List.foldl_cons]
    unfold iteration
    rcases hr : processMessage env msg w with ⟨w1, _ | err⟩
    · exact ih w1
    · exact ih _

/-- The tables after a run of the loop are the tables before it followed by
the rows of `persisted`. -/
theorem foldl_iteration_tables (env : Env) (msgs : List Delivery) (w : World) :
    (msgs.foldl (iteration env) w).db.ticket_purchases
        = w.db.ticket_purchases ++ (persisted env w.db.execs.length msgs).1
    ∧ (msgs.foldl (iteration env) w).db.donations
        = w.db.donations ++ (persisted env w.db.execs.length msgs).2 := by
  induction msgs generalizing w with
  | nil => simp [persisted]
  | cons msg msgs ih =>
    rw [List.foldl_cons]
    have hdb := iteration_db env w msg
    rw [processMessage_db] at hdb
    have ih1 := ih (iteration env w msg)
    rw [persisted]
    cases hreq : request env msg with
    | none =>
      rw [hreq] at hdb
      simp only [hdb] at ih1
      simpa using ih1
    | some r =>
      cases r with
      | purchase m =>
        rw [hreq] at hdb
        simp only [Exec_purchaseInsert] at hdb
        by_cases hx : purchaseOk env w.db.execs.length m = true
        · simp only [hx, if_true] at hdb
          simp only [hdb, List.length_append, List.length_singleton] at ih1
          simpa [hx] using ih1
        · simp only [hx, if_false] at hdb
          simp only [hdb, List.length_append, List.length_singleton] at ih1
          simpa [hx] using ih1
      | donation m =>
        rw [hreq] at hdb
        simp only [Exec_donationInsert] at hdb
        by_cases hx : donationOk env w.db.execs.length m = true
        · simp only [hx, if_true] at hdb
          simp only [hdb, List.length_append, List.length_singleton] at ih1
          simpa [hx] using ih1
        · simp only [hx, if_false] at hdb
          simp only [hdb, List.length_append, List.length_singleton] at ih1
          simpa [hx] using ih1


/-- Which bodies `json.Unmarshal` refuses to decode into the map for their
shape alone: a body the scanner rejects, and a value that is neither an
object nor `null`. -/
theorem unmarshalMap_not_object (body : String)
    (h : parseJSON body = none
      ∨ ∃ v, parseJSON body = some v ∧ v.isObject = false ∧ v.isNull = false) :
    unmarshalMap body = .error Error.json := by
  unfold unmarshalMap
  rcases h with h | ⟨v, hv, ho, hn⟩
  · rw [h]
  · rw [hv]
    cases v <;> simp_all [JSON.isObject, JSON.isNull]

theorem unmarshalMap_null (body : String)
    (h : ∃ v, parseJSON body = some v ∧ v.isNull = true) : unmarshalMap body = .ok [] := by
  unfold unmarshalMap
  obtain ⟨v, hv, hn⟩ := h
  rw [hv]
  cases v <;> simp_all [JSON.isNull]


/-! ## A member that is absent leaves its field zero -/

theorem Except.map_eq_ok {ε α β : Type} {f : α → β} {x : Except ε α} {b : β}
    (h : Except.map f x = .ok b) : ∃ a, x = .ok a ∧ f a = b := by
  cases x with
  | error e => simp [Except.map] at h
  | ok a =>
    simp only [Except.map, Except.ok.injEq] at h
    exact ⟨a, rfl, h⟩

theorem PurchaseMessage.setField_PurchaseTime (env : Env) (m m1 : PurchaseMessage)
    (key : String) (v : JSON) (h : m.setField env key v = .ok m1)
    (hk : keyMatches key "purchase_time" = false) : m1.PurchaseTime = m.PurchaseTime := by
  unfold PurchaseMessage.setField at h
  simp only [hk, Bool.false_eq_true, if_false] at h
  split_ifs at h
  · obtain ⟨a, -, rfl⟩ := Except.map_eq_ok h; rfl
  · obtain ⟨a, -, rfl⟩ := Except.map_eq_ok h; rfl
  · obtain ⟨a, -, rfl⟩ := Except.map_eq_ok h; rfl
  · obtain ⟨a, -, rfl⟩ := Except.map_eq_ok h; rfl
  · simp only [Except.ok.injEq] at h; rw [h]

theorem PurchaseMessage.setFields_PurchaseTime (env : Env)
    (members : List (List Char × JSON)) :
    ∀ (m m1 : PurchaseMessage), PurchaseMessage.setFields env members m = .ok m1 →
      (∀ kv ∈ members, keyMatches (unquote kv.1) "purchase_time" = false) →
      m1.PurchaseTime = m.PurchaseTime := by
  induction members with
  | nil =>
    intro m m1 h _
    simp only [PurchaseMessage.setFields, Except.ok.injEq] at h
    rw [h]
  | cons kv rest ih =>
    intro m m1 h hk
    simp only [PurchaseMessage.setFields] at h
    split at h
    · simp at h
    · rename_i m2 h2
      have e1 := PurchaseMessage.setField_PurchaseTime env m m2 _ _ h2
        (hk kv (List.mem_cons_self _ _))
      have e2 := ih m2 m1 h (fun x hm => hk x (List.mem_cons_of_mem _ hm))
      rw [e2, e1]

theorem DonationMessage.setField_DonationTime (env : Env) (m m1 : DonationMessage)
    (key : String) (v : JSON) (h : m.setField env key v = .ok m1)
    (hk : keyMatches key "donation_time" = false) : m1.DonationTime = m.DonationTime := by
  unfold DonationMessage.setField at h
  simp only [hk, Bool.false_eq_true, if_false] at h
  split_ifs at h
  · obtain ⟨a, -, rfl⟩ := Except.map_eq_ok h; rfl
  · obtain ⟨a, -, rfl⟩ := Except.map_eq_ok h; rfl
  · obtain ⟨a, -, rfl⟩ := Except.map_eq_ok h; rfl
  · simp only [Except.ok.injEq] at h; rw [h]

theorem DonationMessage.setFields_DonationTime (env : Env)
    (members : List (List Char × JSON)) :
    ∀ (m m1 : DonationMessage), DonationMessage.setFields env members m = .ok m1 →
      (∀ kv ∈ members, keyMatches (unquote kv.1) "donation_time" = false) →
      m1.DonationTime = m.DonationTime := by
  induction members with
  | nil =>
    intro m m1 h _
    simp only [DonationMessage.setFields, Except.ok.injEq] at h
    rw [h]
  | cons kv rest ih =>
    intro m m1 h hk
    simp only [DonationMessage.setFields] at h
    split at h
    · simp at h
    · rename_i m2 h2
      have e1 := DonationMessage.setField_DonationTime env m m2 _ _ h2
        (hk kv (List.mem_cons_self _ _))
      have e2 := ih m2 m1 h (fun x hm => hk x (List.mem_cons_of_mem _ hm))
      rw [e2, e1]

/-- A body without a `purchase_time` member decodes with the zero
`PurchaseTime`. -/
theorem unmarshalPurchase_absent_time (env : Env) (body : String)
    (members : List (List Char × JSON)) (m : PurchaseMessage)
    (hp : parseJSON body = some (JSON.object members))
    (habs : ∀ kv ∈ members, keyMatches (unquote kv.1) "purchase_time" = false)
    (h : unmarshalPurchase env body = .ok m) : m.PurchaseTime = Time.zero := by
  unfold unmarshalPurchase at h
  rw [hp] at h
  exact PurchaseMessage.setFields_PurchaseTime env members _ _ h habs

/-- A body without a `donation_time` member decodes with the zero
`DonationTime`. -/
theorem unmarshalDonation_absent_time (env : Env) (body : String)
    (members : List (List Char × JSON)) (m : DonationMessage)
    (hp : parseJSON body = some (JSON.object members))
    (habs : ∀ kv ∈ members, keyMatches (unquote kv.1) "donation_time" = false)
    (h : unmarshalDonation env body = .ok m) : m.DonationTime = Time.zero := by
  unfold unmarshalDonation at h
  rw [hp] at h
  exact DonationMessage.setFields_DonationTime env members _ _ h habs

/-- The defect behind C5 in general: a valid purchase whose body has no
`purchase_time` member is stored with the zero time in `purchase_time`,
whatever the clock of the store shows. -/
theorem processPurchaseMessage_absent_time (env : Env) (body : String) (w : World)
    (members : List (List Char × JSON)) (m : PurchaseMessage)
    (hp : parseJSON body = some (JSON.object members))
    (habs : ∀ kv ∈ members, keyMatches (unquote kv.1) "purchase_time" = false)
    (hd : unmarshalPurchase env body = .ok m) (hv : m.valid)
    (hok : (w.db.Exec env (purchaseInsert m)).2 = none) :
    (processPurchaseMessage env body w).1.db.ticket_purchases
      = w.db.ticket_purchases ++
          [[("user_token", Value.text m.UserToken), ("place_id", Value.int m.PlaceID),
            ("event_time", Value.timestamp m.EventTime.toTimestamp),
            ("purchase_time", Value.timestamp Time.zero), ("cost", Value.int m.Cost)]] := by
  have hz := unmarshalPurchase_absent_time env body members m hp habs hd
  have hx : purchaseOk env w.db.execs.length m = true := by
    by_contra hx
    rw [Exec_purchaseInsert] at hok
    simp [hx] at hok
  rw [processPurchaseMessage_ok env body w m hd, if_pos hv, if_pos hx]
  simp only [purchaseRow, hz]
  rfl

/-- The same for a valid donation whose body has no `donation_time` member. -/
theorem processDonationMessage_absent_time (env : Env) (body : String) (w : World)
    (members : List (List Char × JSON)) (m : DonationMessage)
    (hp : parseJSON body = some (JSON.object members))
    (habs : ∀ kv ∈ members, keyMatches (unquote kv.1) "donation_time" = false)
    (hd : unmarshalDonation env body = .ok m) (hv : m.valid)
    (hok : (w.db.Exec env (donationInsert m)).2 = none) :
    (processDonationMessage env body w).1.db.donations
      = w.db.donations ++
          [[("user_token", Value.text m.UserToken),
            ("collection_id", Value.int m.CollectionID),
            ("donation_time", Value.timestamp Time.zero), ("amount", Value.int m.Amount)]] := by
  have hz := unmarshalDonation_absent_time env body members m hp habs hd
  have hx : donationOk env w.db.execs.length m = true := by
    by_contra hx
    rw [Exec_donationInsert] at hok
    simp [hx] at hok
  rw [processDonationMessage_ok env body w m hd, if_pos hv, if_pos hx]
  simp only [donationRow, hz]
  rfl

/-! ## The decoded record follows the payload -/

theorem keyMatches_fold {key name : String} (h : keyMatches key name = true) :
    key.toList.map foldRune = name.toList.map foldRune := by
  unfold keyMatches at h
  rw [Bool.or_eq_true] at h
  rcases h with h | h
  · have : key = name := by simpa using h
    rw [this]
  · simpa using h

theorem keyMatches_disjoint {key a b : String} (ha : keyMatches key a = true)
    (hab : a.toList.map foldRune ≠ b.toList.map foldRune) : keyMatches key b = false := by
  rw [← Bool.not_eq_true]
  intro hb
  exact hab ((keyMatches_fold ha).symm.trans (keyMatches_fold hb))

theorem decodeString_null (v : JSON) (old : String) (h : v.isNull = true) :
    decodeString v old = .ok old := by
  cases v <;> simp_all [JSON.isNull, decodeString]

theorem decodeString_indep (v : JSON) (old old1 : String) (h : v.isNull = false) :
    decodeString v old = decodeString v old1 := by
  cases v <;> simp_all [JSON.isNull, decodeString]

theorem decodeInt_null (v : JSON) (old : Int) (h : v.isNull = true) :
    decodeInt v old = .ok old := by
  cases v <;> simp_all [JSON.isNull, decodeInt]

theorem decodeInt_indep (v : JSON) (old old1 : Int) (h : v.isNull = false) :
    decodeInt v old = decodeInt v old1 := by
  cases v <;> simp_all [JSON.isNull, decodeInt]

theorem decodeTime_null (env : Env) (v : JSON) (old : Time) (h : v.isNull = true) :
    decodeTime env v old = .ok old := by
  cases v <;> simp_all [JSON.isNull, decodeTime]

theorem decodeTime_indep (env : Env) (v : JSON) (old old1 : Time) (h : v.isNull = false) :
    decodeTime env v old = decodeTime env v old1 := by
  cases v <;> simp_all [JSON.isNull, decodeTime]

/-- The decoded field follows the payload: after the members are decoded in
order, a field holds what the last member that selects it with a value other
than `null` decodes to, or what it held before when there is none. -/
theorem PurchaseMessage.setFields_field {α : Type} (env : Env)
    (get : PurchaseMessage → α) (dec : JSON → α → Except Error α) (name : String) (init : α)
    (hstep : ∀ (m : PurchaseMessage) (key : String) (v : JSON) (m1 : PurchaseMessage),
      m.setField env key v = .ok m1 →
        (keyMatches key name = true → dec v (get m) = .ok (get m1))
        ∧ (keyMatches key name = false → get m1 = get m))
    (hnull : ∀ v old, v.isNull = true → dec v old = .ok old)
    (hindep : ∀ v old old1, v.isNull = false → dec v old = dec v old1)
    (members : List (List Char × JSON)) :
    ∀ (acc : Option JSON) (m0 m : PurchaseMessage), fieldFrom dec init acc (get m0) →
      PurchaseMessage.setFields env members m0 = .ok m →
      fieldFrom dec init
        (members.foldl
          (fun acc kv =>
            if keyMatches (unquote kv.1) name && !kv.2.isNull then some kv.2 else acc) acc)
        (get m) := by
  induction members with
  | nil =>
    intro acc m0 m h0 h
    simp only [PurchaseMessage.setFields, Except.ok.injEq] at h
    rw [← h]
    exact h0
  | cons kv rest ih =>
    intro acc m0 m h0 h
    simp only [PurchaseMessage.setFields] at h
    split at h
    · simp at h
    · rename_i m1 h1
      rw [List.foldl_cons]
      apply ih _ m1 m _ h
      obtain ⟨hs1, hs2⟩ := hstep m0 _ _ m1 h1
      cases hk : keyMatches (unquote kv.1) name with
      | false =>
        simp only [Bool.false_and, Bool.false_eq_true, if_false]
        rw [hs2 hk]
        exact h0
      | true =>
        have hd := hs1 hk
        cases hn : kv.2.isNull with
        | true =>
          simp only [Bool.not_true, Bool.and_false, Bool.false_eq_true, if_false]
          rw [hnull _ _ hn] at hd
          simp only [Except.ok.injEq] at hd
          rw [← hd]
          exact h0
        | false =>
          simp only [Bool.not_false, Bool.and_self, if_true]
          exact ⟨hn, by rw [hindep _ init (get m0) hn]; exact hd⟩


theorem PurchaseMessage.setField_UserToken (env : Env) (m : PurchaseMessage) (key : String)
    (v : JSON) (m1 : PurchaseMessage) (h : m.setField env key v = .ok m1) :
    (keyMatches key "user_token" = true → decodeString v m.UserToken = .ok m1.UserToken)
    ∧ (keyMatches key "user_token" = false → m1.UserToken = m.UserToken) := by
  unfold PurchaseMessage.setField at h
  constructor
  · intro hk
    simp only [hk, if_true] at h
    obtain ⟨a, ha, rfl⟩ := Except.map_eq_ok h
    exact ha
  · intro hk
    simp only [hk, Bool.false_eq_true, if_false] at h
    split_ifs at h
    · obtain ⟨a, -, rfl⟩ := Except.map_eq_ok h; rfl
    · obtain ⟨a, -, rfl⟩ := Except.map_eq_ok h; rfl
    · obtain ⟨a, -, rfl⟩ := Except.map_eq_ok h; rfl
    · obtain ⟨a, -, rfl⟩ := Except.map_eq_ok h; rfl
    · simp only [Except.ok.injEq] at h; rw [h]

theorem PurchaseMessage.setField_PlaceID (env : Env) (m : PurchaseMessage) (key : String)
    (v : JSON) (m1 : PurchaseMessage) (h : m.setField env key v = .ok m1) :
    (keyMatches key "place_id" = true → decodeInt v m.PlaceID = .ok m1.PlaceID)
    ∧ (keyMatches key "place_id" = false → m1.PlaceID = m.PlaceID) := by
  unfold PurchaseMessage.setField at h
  constructor
  · intro hk
    have h1 : keyMatches key "user_token" = false := keyMatches_disjoint hk (by decide)
    simp only [hk, h1, Bool.false_eq_true, if_false, if_true] at h
    obtain ⟨a, ha, rfl⟩ := Except.map_eq_ok h
    exact ha
  · intro hk
    simp only [hk, Bool.false_eq_true, if_false] at h
    split_ifs at h
    · obtain ⟨a, -, rfl⟩ := Except.map_eq_ok h; rfl
    · obtain ⟨a, -, rfl⟩ := Except.map_eq_ok h; rfl
    · obtain ⟨a, -, rfl⟩ := Except.map_eq_ok h; rfl
    · obtain ⟨a, -, rfl⟩ := Except.map_eq_ok h; rfl
    · simp only [Except.ok.injEq] at h; rw [h]

theorem PurchaseMessage.setField_EventTime (env : Env) (m : PurchaseMessage) (key : String)
    (v : JSON) (m1 : PurchaseMessage) (h : m.setField env key v = .ok m1) :
    (keyMatches key "event_time" = true → decodeTime env v m.EventTime = .ok m1.EventTime)
    ∧ (keyMatches key "event_time" = false → m1.EventTime = m.EventTime) := by
  unfold PurchaseMessage.setField at h
  constructor
  · intro hk
    have h1 : keyMatches key "user_token" = false := keyMatches_disjoint hk (by decide)
    have h2 : keyMatches key "place_id" = false := keyMatches_disjoint hk (by decide)
    simp only [hk, h1, h2, Bool.false_eq_true, if_false, if_true] at h
    obtain ⟨a, ha, rfl⟩ := Except.map_eq_ok h
    exact ha
  · intro hk
    simp only [hk, Bool.false_eq_true, if_false] at h
    split_ifs at h
    · obtain ⟨a, -, rfl⟩ := Except.map_eq_ok h; rfl
    · obtain ⟨a, -, rfl⟩ := Except.map_eq_ok h; rfl
    · obtain ⟨a, -, rfl⟩ := Except.map_eq_ok h; rfl
    · obtain ⟨a, -, rfl⟩ := Except.map_eq_ok h; rfl
    · simp only [Except.ok.injEq] at h; rw [h]

theorem PurchaseMessage.setField_PurchaseTime_of_key (env : Env) (m : PurchaseMessage)
    (key : String) (v : JSON) (m1 : PurchaseMessage) (h : m.setField env key v = .ok m1) :
    (keyMatches key "purchase_time" = true →
      decodeTime env v m.PurchaseTime = .ok m1.PurchaseTime)
    ∧ (keyMatches key "purchase_time" = false → m1.PurchaseTime = m.PurchaseTime) := by
  unfold PurchaseMessage.setField at h
  constructor
  · intro hk
    have h1 : keyMatches key "user_token" = false := keyMatches_disjoint hk (by decide)
    have h2 : keyMatches key "place_id" = false := keyMatches_disjoint hk (by decide)
    have h3 : keyMatches key "event_time" = false := keyMatches_disjoint hk (by decide)
    simp only [hk, h1, h2, h3, Bool.false_eq_true, if_false, if_true] at h
    obtain ⟨a, ha, rfl⟩ := Except.map_eq_ok h
    exact ha
  · intro hk
    simp only [hk, Bool.false_eq_true, if_false] at h
    split_ifs at h
    · obtain ⟨a, -, rfl⟩ := Except.map_eq_ok h; rfl
    · obtain ⟨a, -, rfl⟩ := Except.map_eq_ok h; rfl
    · obtain ⟨a, -, rfl⟩ := Except.map_eq_ok h; rfl
    · obtain ⟨a, -, rfl⟩ := Except.map_eq_ok h; rfl
    · simp only [Except.ok.injEq] at h; rw [h]

theorem PurchaseMessage.setField_Cost (env : Env) (m : PurchaseMessage) (key : String)
    (v : JSON) (m1 : PurchaseMessage) (h : m.setField env key v = .ok m1) :
    (keyMatches key "cost" = true → decodeInt v m.Cost = .ok m1.Cost)
    ∧ (keyMatches key "cost" = false → m1.Cost = m.Cost) := by
  unfold PurchaseMessage.setField at h
  constructor
  · intro hk
    have h1 : keyMatches key "user_token" = false := keyMatches_disjoint hk (by decide)
    have h2 : keyMatches key "place_id" = false := keyMatches_disjoint hk (by decide)
    have h3 : keyMatches key "event_time" = false := keyMatches_disjoint hk (by decide)
    have h4 : keyMatches key "purchase_time" = false := keyMatches_disjoint hk (by decide)
    simp only [hk, h1, h2, h3, h4, Bool.false_eq_true, if_false, if_true] at h
    obtain ⟨a, ha, rfl⟩ := Except.map_eq_ok h
    exact ha
  · intro hk
    simp only [hk, Bool.false_eq_true, if_false] at h
    split_ifs at h
    · obtain ⟨a, -, rfl⟩ := Except.map_eq_ok h; rfl
    · obtain ⟨a, -, rfl⟩ := Except.map_eq_ok h; rfl
    · obtain ⟨a, -, rfl⟩ := Except.map_eq_ok h; rfl
    · obtain ⟨a, -, rfl⟩ := Except.map_eq_ok h; rfl
    · simp only [Except.ok.injEq] at h; rw [h]

/-- The five fields of a decoded purchase record are what the payload gives
for them. -/
theorem unmarshalPurchase_fields (env : Env) (body : String)
    (members : List (List Char × JSON)) (m : PurchaseMessage)
    (hp : parseJSON body = some (JSON.object members))
    (hd : unmarshalPurchase env body = .ok m) :
    fieldFrom decodeString "" (payloadField members "user_token") m.UserToken
    ∧ fieldFrom decodeInt 0 (payloadField members "place_id") m.PlaceID
    ∧ fieldFrom (decodeTime env) Time.zero (payloadField members "event_time") m.EventTime
    ∧ fieldFrom (decodeTime env) Time.zero (payloadField members "purchase_time")
        m.PurchaseTime
    ∧ fieldFrom decodeInt 0 (payloadField members "cost") m.Cost := by
  unfold unmarshalPurchase at hd
  rw [hp] at hd
  refine ⟨?_, ?_, ?_, ?_, ?_⟩
  · exact PurchaseMessage.setFields_field env (fun m => m.UserToken) decodeString
      "user_token" "" (PurchaseMessage.setField_UserToken env) decodeString_null
      decodeString_indep members none PurchaseMessage.zero m (by unfold fieldFrom; rfl) hd
  · exact PurchaseMessage.setFields_field env (fun m => m.PlaceID) decodeInt
      "place_id" 0 (PurchaseMessage.setField_PlaceID env) decodeInt_null
      decodeInt_indep members none PurchaseMessage.zero m (by unfold fieldFrom; rfl) hd
  · exact PurchaseMessage.setFields_field env (fun m => m.EventTime) (decodeTime env)
      "event_time" Time.zero (PurchaseMessage.setField_EventTime env) (decodeTime_null env)
      (decodeTime_indep env) members none PurchaseMessage.zero m (by unfold fieldFrom; rfl) hd
  · exact PurchaseMessage.setFields_field env (fun m => m.PurchaseTime) (decodeTime env)
      "purchase_time" Time.zero (PurchaseMessage.setField_PurchaseTime_of_key env)
      (decodeTime_null env) (decodeTime_indep env) members none PurchaseMessage.zero m (by unfold fieldFrom; rfl) hd
  · exact PurchaseMessage.setFields_field env (fun m => m.Cost) decodeInt
      "cost" 0 (PurchaseMessage.setField_Cost env) decodeInt_null
      decodeInt_indep members none PurchaseMessage.zero m (by unfold fieldFrom; rfl) hd

theorem fieldFrom_string {given : Option JSON} {x : String}
    (h : fieldFrom decodeString "" given x) (hx : x ≠ "") :
    ∃ raw, given = some (JSON.string raw) ∧ unquote raw = x := by
  unfold fieldFrom at h
  cases given with
  | none => exact absurd h hx
  | some v =>
    obtain ⟨hn, hd⟩ := h
    cases v <;> simp_all [decodeString, JSON.isNull]

theorem fieldFrom_int {given : Option JSON} {x : Int}
    (h : fieldFrom decodeInt 0 given x) (hx : x ≠ 0) :
    ∃ lit, given = some (JSON.number lit) ∧ parseInt64 lit = some x := by
  unfold fieldFrom at h
  cases given with
  | none => exact absurd h hx
  | some v =>
    obtain ⟨hn, hd⟩ := h
    cases v with
    | number lit =>
      refine ⟨lit, rfl, ?_⟩
      unfold decodeInt at hd
      cases hl : parseInt64 lit with
      | none => simp [hl] at hd
      | some n => simpa [hl] using hd
    | _ => simp_all [decodeInt, JSON.isNull]

theorem fieldFrom_time {env : Env} {given : Option JSON} {x : Time}
    (h : fieldFrom (decodeTime env) Time.zero given x) (hg : given.isSome = true) :
    ∃ raw, given = some (JSON.string raw) ∧ env.parseTime raw = some x := by
  unfold fieldFrom at h
  cases given with
  | none => simp at hg
  | some v =>
    obtain ⟨hn, hd⟩ := h
    cases v with
    | string raw =>
      refine ⟨raw, rfl, ?_⟩
      unfold decodeTime at hd
      cases hl : env.parseTime raw with
      | none => simp [hl] at hd
      | some n => simpa [hl] using hd
    | _ => simp_all [decodeTime, JSON.isNull]

theorem Time.toTimestamp_exact (t : Time) (h1 : t.offset = 0) (h2 : t.nsec % 1000 = 0) :
    t.toTimestamp = t := by
  obtain ⟨sec, nsec, offset⟩ := t
  simp only at h1 h2
  subst h1
  simp only [Time.toTimestamp, add_zero, Time.mk.injEq, and_true, true_and]
  exact Nat.div_mul_cancel (Nat.dvd_of_mod_eq_zero h2)

/-- C1. A body that `json.Unmarshal` decodes into the map is classified by key
presence in first-match order: with `place_id` present it is handled by
`processPurchaseMessage` (also when `collection_id` is present too), otherwise
with `collection_id` present by `processDonationMessage`, otherwise it is
unknown: a warning is logged and nil returned. The three cases exclude each
other and cover every such body. -/
theorem processMessage_classifies (env : Env) (msg : Delivery) (w : World)
    (messageType : GoMap) (h : unmarshalMap msg.Body = .ok messageType) :
    ((∃ v, ("place_id", v) ∈ messageType) →
        processMessage env msg w = processPurchaseMessage env msg.Body w)
    ∧ ((¬ ∃ v, ("place_id", v) ∈ messageType) → (∃ v, ("collection_id", v) ∈ messageType) →
        processMessage env msg w = processDonationMessage env msg.Body w)
    ∧ ((¬ ∃ v, ("place_id", v) ∈ messageType) → (¬ ∃ v, ("collection_id", v) ∈ messageType) →
        processMessage env msg w = (w.Warn "Received message with unknown type", none)) := by
  rw [processMessage_ok env msg w messageType h]
  refine ⟨fun hp => ?_, fun hp hc => ?_, fun hp hc => ?_⟩
  · rw [if_pos ((GoMap.has_iff _ _).2 hp)]
  · have h1 := (GoMap.has_eq_false_iff _ _).2 hp
    have h2 := (GoMap.has_iff _ _).2 hc
    simp [h1, h2]
  · have h1 := (GoMap.has_eq_false_iff _ _).2 hp
    have h2 := (GoMap.has_eq_false_iff _ _).2 hc
    simp [h1, h2]

set_option maxRecDepth 100000 in
set_option exponentiation.threshold 2000 in
/-- Witness of C1: a body with both keys is handled as a purchase. -/
theorem processMessage_classifies_witness :
    unmarshalMap bothKeysBody = .ok [("place_id", JSON.number ['1']),
        ("collection_id", JSON.number ['2'])]
    ∧ processMessage refEnv { Body := bothKeysBody } World.empty
        = processPurchaseMessage refEnv bothKeysBody World.empty :=
  ⟨by rfl,
    (processMessage_classifies refEnv { Body := bothKeysBody } World.empty
      [("place_id", JSON.number ['1']), ("collection_id", JSON.number ['2'])]
      (by rfl)).1 ⟨JSON.number ['1'], by simp⟩⟩

set_option maxRecDepth 100000 in
set_option exponentiation.threshold 2000 in
/-- C4 as stated fails. The body has all five fields, `event_time` written
with the zone `+01:00` and `purchase_time` with nine digits after the period.
It decodes, the store carries out the insert, and the row holds the wall
clock 10:00:00 without the zone where the payload means 09:00:00 UTC, and
`.123456` where the payload says `.123456789`: neither column equals the
payload field. -/
theorem zoned_purchase_not_stored_as_written :
    unmarshalPurchase refEnv zonedPurchaseBody = .ok zonedPurchaseRecord
    ∧ parseJSON zonedPurchaseBody = some (JSON.object zonedPurchaseMembers)
    ∧ (payloadField zonedPurchaseMembers "purchase_time").isSome = true
    ∧ processPurchaseMessage refEnv zonedPurchaseBody World.empty
      = (World.Info
          { db :=
              { ticket_purchases :=
                  [[("user_token", Value.text "u1"), ("place_id", Value.int 42),
                    ("event_time",
                      Value.timestamp { sec := 63839700000, nsec := 0, offset := 0 }),
                    ("purchase_time",
                      Value.timestamp { sec := 63839039400, nsec := 123456000, offset := 0 }),
                    ("cost", Value.int 500)]],
                donations := [],
                execs := [purchaseInsert zonedPurchaseRecord] },
            log := [] } "Saved ticket purchase", none)
    ∧ Value.timestamp { sec := 63839700000, nsec := 0, offset := 0 }
        ≠ Value.timestamp zonedPurchaseRecord.EventTime
    ∧ Value.timestamp { sec := 63839039400, nsec := 123456000, offset := 0 }
        ≠ Value.timestamp zonedPurchaseRecord.PurchaseTime :=
  ⟨by rfl, by rfl, by rfl, by decide, by decide, by decide⟩

/-- C4 as amended. For a purchase payload that decodes, whose required fields
are non-zero and which gives a `purchase_time`, processed against a store
that carries out the insert: the payload gives all five fields, they are
bound as `$1` to `$5` in the order `user_token`, `place_id`, `event_time`,
`purchase_time`, `cost`, exactly one row is appended to `ticket_purchases`,
`donations` is left as it was and nil is returned. In that row `user_token`,
`place_id` and `cost` equal the payload fields, and `event_time` and
`purchase_time` hold the wall clock of the payload time without its zone, cut
to whole microseconds; that equals the payload time when it is written in UTC
with no digits beyond microseconds. -/
theorem processPurchaseMessage_persists (env : Env) (body : String) (w : World)
    (members : List (List Char × JSON)) (m : PurchaseMessage)
    (hp : parseJSON body = some (JSON.object members))
    (hd : unmarshalPurchase env body = .ok m)
    (hv : m.UserToken ≠ "" ∧ m.PlaceID ≠ 0 ∧ m.EventTime.IsZero = false ∧ m.Cost ≠ 0)
    (hpt : (payloadField members "purchase_time").isSome = true)
    (hok : (w.db.Exec env (purchaseInsert m)).2 = none) :
    ∃ (user_token place_id event_time purchase_time cost : List Char)
      (pid c : Int) (et pt : Time),
      payloadField members "user_token" = some (JSON.string user_token)
      ∧ payloadField members "place_id" = some (JSON.number place_id)
      ∧ payloadField members "event_time" = some (JSON.string event_time)
      ∧ payloadField members "purchase_time" = some (JSON.string purchase_time)
      ∧ payloadField members "cost" = some (JSON.number cost)
      ∧ parseInt64 place_id = some pid ∧ env.parseTime event_time = some et
      ∧ env.parseTime purchase_time = some pt ∧ parseInt64 cost = some c
      ∧ (purchaseInsert m).args
          = [Value.text (unquote user_token), Value.int pid, Value.timestamp et,
              Value.timestamp pt, Value.int c]
      ∧ (processPurchaseMessage env body w).2 = none
      ∧ (processPurchaseMessage env body w).1.db.ticket_purchases
          = w.db.ticket_purchases ++
              [[("user_token", Value.text (unquote user_token)), ("place_id", Value.int pid),
                ("event_time", Value.timestamp et.toTimestamp),
                ("purchase_time", Value.timestamp pt.toTimestamp),
                ("cost", Value.int c)]]
      ∧ (processPurchaseMessage env body w).1.db.donations = w.db.donations
      ∧ et.toTimestamp
          = { sec := et.sec + et.offset, nsec := et.nsec / 1000 * 1000, offset := 0 }
      ∧ pt.toTimestamp
          = { sec := pt.sec + pt.offset, nsec := pt.nsec / 1000 * 1000, offset := 0 }
      ∧ (et.offset = 0 → et.nsec % 1000 = 0 → et.toTimestamp = et)
      ∧ (pt.offset = 0 → pt.nsec % 1000 = 0 → pt.toTimestamp = pt) := by
  obtain ⟨f1, f2, f3, f4, f5⟩ := unmarshalPurchase_fields env body members m hp hd
  obtain ⟨hv1, hv2, hv3, hv4⟩ := hv
  obtain ⟨user_token, g1, e1⟩ := fieldFrom_string f1 hv1
  obtain ⟨place_id, g2, e2⟩ := fieldFrom_int f2 hv2
  have hev : (payloadField members "event_time").isSome = true := by
    cases hg : payloadField members "event_time" with
    | some v => rfl
    | none =>
      rw [hg] at f3
      have hz : m.EventTime = Time.zero := f3
      rw [hz] at hv3
      exact absurd hv3 (by decide)
  obtain ⟨event_time, g3, e3⟩ := fieldFrom_time f3 hev
  obtain ⟨purchase_time, g4, e4⟩ := fieldFrom_time f4 hpt
  obtain ⟨cost, g5, e5⟩ := fieldFrom_int f5 hv4
  have hvalid : m.valid := ⟨hv1, hv2, hv3, hv4⟩
  have hx : purchaseOk env w.db.execs.length m = true := by
    by_contra hx
    rw [Exec_purchaseInsert] at hok
    simp [hx] at hok
  refine ⟨user_token, place_id, event_time, purchase_time, cost, m.PlaceID, m.Cost,
    m.EventTime, m.PurchaseTime, g1, g2, g3, g4, g5, e2, e3, e4, e5, ?_, ?_, ?_, ?_,
    rfl, rfl, Time.toTimestamp_exact _, Time.toTimestamp_exact _⟩
  · rw [e1]; rfl
  · rw [processPurchaseMessage_ok env body w m hd, if_pos hvalid, if_pos hx]
  · rw [processPurchaseMessage_ok env body w m hd, if_pos hvalid, if_pos hx, e1]
    rfl
  · rw [processPurchaseMessage_ok env body w m hd, if_pos hvalid, if_pos hx]
    rfl

set_option maxRecDepth 100000 in
set_option exponentiation.threshold 2000 in
/-- Witness of C4 as amended: a payload with all five fields, both times in
UTC and the purchase time a quarter of a second past 18:30:00; the row holds
the five payload fields as they are written. -/
theorem processPurchaseMessage_persists_witness :
    parseJSON fullPurchaseBody = some (JSON.object fullPurchaseMembers)
    ∧ unmarshalPurchase refEnv fullPurchaseBody = .ok fullPurchaseRecord
    ∧ (∃ (user_token place_id event_time purchase_time cost : List Char)
        (pid c : Int) (et pt : Time),
        payloadField fullPurchaseMembers "user_token" = some (JSON.string user_token)
        ∧ payloadField fullPurchaseMembers "place_id" = some (JSON.number place_id)
        ∧ payloadField fullPurchaseMembers "event_time" = some (JSON.string event_time)
        ∧ payloadField fullPurchaseMembers "purchase_time"
            = some (JSON.string purchase_time)
        ∧ payloadField fullPurchaseMembers "cost" = some (JSON.number cost)
        ∧ parseInt64 place_id = some pid ∧ refEnv.parseTime event_time = some et
        ∧ refEnv.parseTime purchase_time = some pt ∧ parseInt64 cost = some c
        ∧ (purchaseInsert fullPurchaseRecord).args
            = [Value.text (unquote user_token), Value.int pid, Value.timestamp et,
                Value.timestamp pt, Value.int c]
        ∧ (processPurchaseMessage refEnv fullPurchaseBody World.empty).2 = none
        ∧ (processPurchaseMessage refEnv fullPurchaseBody World.empty).1.db.ticket_purchases
            = World.empty.db.ticket_purchases ++
                [[("user_token", Value.text (unquote user_token)),
                  ("place_id", Value.int pid),
                  ("event_time", Value.timestamp et.toTimestamp),
                  ("purchase_time", Value.timestamp pt.toTimestamp),
                  ("cost", Value.int c)]]
        ∧ (processPurchaseMessage refEnv fullPurchaseBody World.empty).1.db.donations
            = World.empty.db.donations
        ∧ et.toTimestamp
            = { sec := et.sec + et.offset, nsec := et.nsec / 1000 * 1000, offset := 0 }
        ∧ pt.toTimestamp
            = { sec := pt.sec + pt.offset, nsec := pt.nsec / 1000 * 1000, offset := 0 }
        ∧ (et.offset = 0 → et.nsec % 1000 = 0 → et.toTimestamp = et)
        ∧ (pt.offset = 0 → pt.nsec % 1000 = 0 → pt.toTimestamp = pt))
    ∧ (processPurchaseMessage refEnv fullPurchaseBody World.empty).1.db.ticket_purchases
        = [[("user_token", Value.text "u1"), ("place_id", Value.int 42),
            ("event_time", Value.timestamp { sec := 63839700000, nsec := 0, offset := 0 }),
            ("purchase_time",
              Value.timestamp { sec := 63839039400, nsec := 250000000, offset := 0 }),
            ("cost", Value.int 500)]] :=
  ⟨by rfl, by rfl,
    processPurchaseMessage_persists refEnv fullPurchaseBody World.empty fullPurchaseMembers
      fullPurchaseRecord (by rfl) (by rfl) (by decide) (by rfl) (by rfl),
    by decide⟩

/-- C5, the code at the two bodies of the claim, on a store whose clock
stands at 2024-06-01T12:00:00Z. Neither body has `purchase_time` or
`donation_time`; the statement still lists the column and binds the zero
`time.Time` of the decoded record to it, so the row holds the zero time
(0001-01-01T00:00:00Z) and not the time of the insertion. -/
theorem absent_timestamp_stored_as_zero_time :
    (processMessage refEnv { Body := purchaseBody } World.empty).1.db.ticket_purchases
      = [[("user_token", Value.text "u1"), ("place_id", Value.int 42),
          ("event_time", Value.timestamp { sec := 63839700000, nsec := 0, offset := 0 }),
          ("purchase_time", Value.timestamp Time.zero), ("cost", Value.int 500)]]
    ∧ (processMessage refEnv { Body := donationBody } World.empty).1.db.donations
      = [[("user_token", Value.text "u2"), ("collection_id", Value.int 7),
          ("donation_time", Value.timestamp Time.zero), ("amount", Value.int 100)]]
    ∧ refEnv.now 0 = { sec := 63852840000, nsec := 0, offset := 0 }
    ∧ Value.timestamp (refEnv.now 0) ≠ Value.timestamp Time.zero := by
  decide!

/-- C7 as stated fails: the body `[1,2]` is well-formed JSON that is not an
object, the body `{"place_id":` is malformed, and for both `processMessage`
returns a non-nil error instead of nil. -/
theorem processMessage_array_body_returns_error :
    (parseJSON arrayBody).map JSON.isObject = some false
    ∧ (processMessage refEnv { Body := arrayBody } World.empty).2
        = some (Error.wrap "failed to unmarshal message body" Error.json)
    ∧ (parseJSON truncatedBody).map JSON.isObject = none
    ∧ (processMessage refEnv { Body := truncatedBody } World.empty).2
        = some (Error.wrap "failed to unmarshal message body" Error.json) := by
  decide!

/-- C7 as amended. A body that is not a well-formed JSON object never
reaches the store. Malformed JSON and a JSON array, string, number or boolean
fail to decode into the map, and for a body that fails to decode
`processMessage` changes neither the store nor the log and returns a non-nil
error that wraps the decode error; the loop logs that error and goes on with
the next delivery. The body `null` decodes to the nil map and is dropped as a
message of unknown type, with nil returned. -/
theorem processMessage_not_object (env : Env) (msg : Delivery) (w : World) :
    ((parseJSON msg.Body = none
        ∨ ∃ v, parseJSON msg.Body = some v ∧ v.isObject = false ∧ v.isNull = false) →
      unmarshalMap msg.Body = .error Error.json)
    ∧ (∀ err : Error, unmarshalMap msg.Body = .error err →
      processMessage env msg w
          = (w, some (Error.wrap "failed to unmarshal message body" err))
      ∧ ∀ msgs : List Delivery,
          consume env (msg :: msgs) w
            = consume env msgs (w.Error "Message processing error"))
    ∧ ((∃ v, parseJSON msg.Body = some v ∧ v.isNull = true) →
      processMessage env msg w = (w.Warn "Received message with unknown type", none)) := by
  refine ⟨unmarshalMap_not_object _, ?_, ?_⟩
  · intro err h
    have hres := processMessage_error env msg w err h
    refine ⟨hres, fun msgs => ?_⟩
    rw [consume, hres]
  · intro h
    rw [processMessage_ok env msg w [] (unmarshalMap_null _ h)]
    rfl

set_option maxRecDepth 100000 in
set_option exponentiation.threshold 2000 in
/-- Witness of C7 as amended: the bodies `[1,2]`, `{"place_id":` and `null`. -/
theorem processMessage_not_object_witness :
    processMessage refEnv { Body := arrayBody } World.empty
        = (World.empty, some (Error.wrap "failed to unmarshal message body" Error.json))
    ∧ processMessage refEnv { Body := truncatedBody } World.empty
        = (World.empty, some (Error.wrap "failed to unmarshal message body" Error.json))
    ∧ processMessage refEnv { Body := nullBody } World.empty
        = (World.empty.Warn "Received message with unknown type", none) :=
  ⟨((processMessage_not_object refEnv { Body := arrayBody } World.empty).2.1 Error.json
      ((processMessage_not_object refEnv { Body := arrayBody } World.empty).1
        (Or.inr ⟨JSON.array [JSON.number ['1'], JSON.number ['2']],
          by rfl, by rfl, by rfl⟩))).1,
    ((processMessage_not_object refEnv { Body := truncatedBody } World.empty).2.1 Error.json
      ((processMessage_not_object refEnv { Body := truncatedBody } World.empty).1
        (Or.inl (by rfl)))).1,
    (processMessage_not_object refEnv { Body := nullBody } World.empty).2.2
      ⟨JSON.null, by rfl, by rfl⟩⟩

/-- C8. When a body is classified as a purchase (the map has `place_id`) and
its decoding into `PurchaseMessage` fails, `processMessage` returns a non-nil
error that wraps the decode error and changes neither the store nor the log;
likewise for a body classified as a donation whose decoding into
`DonationMessage` fails. -/
theorem processMessage_decode_failure (env : Env) (msg : Delivery) (w : World)
    (messageType : GoMap) (err : Error) (h : unmarshalMap msg.Body = .ok messageType) :
    ((∃ v, ("place_id", v) ∈ messageType) → unmarshalPurchase env msg.Body = .error err →
        processMessage env msg w
          = (w, some (Error.wrap "failed to unmarshal purchase message" err)))
    ∧ ((¬ ∃ v, ("place_id", v) ∈ messageType) → (∃ v, ("collection_id", v) ∈ messageType) →
        unmarshalDonation env msg.Body = .error err →
        processMessage env msg w
          = (w, some (Error.wrap "failed to unmarshal donation message" err))) := by
  rw [processMessage_ok env msg w messageType h]
  refine ⟨fun hp he => ?_, fun hp hc he => ?_⟩
  · rw [if_pos ((GoMap.has_iff _ _).2 hp)]
    unfold processPurchaseMessage
    rw [he]
  · rw [(GoMap.has_eq_false_iff _ _).2 hp, if_pos ((GoMap.has_iff _ _).2 hc)]
    simp only [Bool.false_eq_true, if_false]
    unfold processDonationMessage
    rw [he]

set_option maxRecDepth 100000 in
set_option exponentiation.threshold 2000 in
/-- Witness of C8: `place_id` given as a string, and `amount` given as a
string. -/
theorem processMessage_decode_failure_witness :
    unmarshalPurchase refEnv stringPlaceBody = .error Error.json
    ∧ processMessage refEnv { Body := stringPlaceBody } World.empty
        = (World.empty, some (Error.wrap "failed to unmarshal purchase message" Error.json))
    ∧ unmarshalDonation refEnv stringAmountBody = .error Error.json
    ∧ processMessage refEnv { Body := stringAmountBody } World.empty
        = (World.empty, some (Error.wrap "failed to unmarshal donation message" Error.json)) :=
  ⟨by rfl,
    (processMessage_decode_failure refEnv { Body := stringPlaceBody } World.empty
      [("place_id", JSON.string ['4', '2']), ("cost", JSON.number ['5', '0', '0'])]
      Error.json (by rfl)).1 ⟨JSON.string ['4', '2'], by simp⟩ (by rfl),
    by rfl,
    (processMessage_decode_failure refEnv { Body := stringAmountBody } World.empty
      [("collection_id", JSON.number ['7']), ("amount", JSON.string ['1', '0', '0'])]
      Error.json (by rfl)).2 (by simp) ⟨JSON.number ['7'], by simp⟩ (by rfl)⟩

/-- C9. For a body that decodes into a valid purchase record, the store after
`processPurchaseMessage` is the store after the one `Exec` call of its insert
(the statement is submitted exactly once), the returned error is non-nil if
and only if that call failed, and `processMessage` returns what
`processPurchaseMessage` returns; the same holds for a valid donation record
and `processDonationMessage`. -/
theorem insert_error_iff_exec_failed (env : Env) (msg : Delivery) (w : World) :
    (∀ m : PurchaseMessage, unmarshalPurchase env msg.Body = .ok m → m.valid →
      (processPurchaseMessage env msg.Body w).1.db = (w.db.Exec env (purchaseInsert m)).1
      ∧ (processPurchaseMessage env msg.Body w).1.db.execs
          = w.db.execs ++ [purchaseInsert m]
      ∧ ((processPurchaseMessage env msg.Body w).2 ≠ none
          ↔ (w.db.Exec env (purchaseInsert m)).2 ≠ none)
      ∧ ∀ messageType : GoMap, unmarshalMap msg.Body = .ok messageType →
          (∃ v, ("place_id", v) ∈ messageType) →
          processMessage env msg w = processPurchaseMessage env msg.Body w)
    ∧ (∀ m : DonationMessage, unmarshalDonation env msg.Body = .ok m → m.valid →
      (processDonationMessage env msg.Body w).1.db = (w.db.Exec env (donationInsert m)).1
      ∧ (processDonationMessage env msg.Body w).1.db.execs
          = w.db.execs ++ [donationInsert m]
      ∧ ((processDonationMessage env msg.Body w).2 ≠ none
          ↔ (w.db.Exec env (donationInsert m)).2 ≠ none)
      ∧ ∀ messageType : GoMap, unmarshalMap msg.Body = .ok messageType →
          (¬ ∃ v, ("place_id", v) ∈ messageType) →
          (∃ v, ("collection_id", v) ∈ messageType) →
          processMessage env msg w = processDonationMessage env msg.Body w) := by
  constructor
  · intro m hd hv
    rw [processPurchaseMessage_ok env msg.Body w m hd, Exec_purchaseInsert]
    refine ⟨?_, ?_, ?_, ?_⟩
    · by_cases hx : purchaseOk env w.db.execs.length m = true
      · simp [hv, hx, World.Info]
      · simp [hv, hx]
    · by_cases hx : purchaseOk env w.db.execs.length m = true
      · simp [hv, hx, World.Info]
      · simp [hv, hx]
    · by_cases hx : purchaseOk env w.db.execs.length m = true
      · simp [hv, hx]
      · simp [hv, hx]
    · intro messageType hm hp
      rw [processMessage_ok env msg w messageType hm, if_pos ((GoMap.has_iff _ _).2 hp),
        processPurchaseMessage_ok env msg.Body w m hd]
  · intro m hd hv
    rw [processDonationMessage_ok env msg.Body w m hd, Exec_donationInsert]
    refine ⟨?_, ?_, ?_, ?_⟩
    · by_cases hx : donationOk env w.db.execs.length m = true
      · simp [hv, hx, World.Info]
      · simp [hv, hx]
    · by_cases hx : donationOk env w.db.execs.length m = true
      · simp [hv, hx, World.Info]
      · simp [hv, hx]
    · by_cases hx : donationOk env w.db.execs.length m = true
      · simp [hv, hx]
      · simp [hv, hx]
    · intro messageType hm hp hc
      rw [processMessage_ok env msg w messageType hm, (GoMap.has_eq_false_iff _ _).2 hp,
        if_pos ((GoMap.has_iff _ _).2 hc), processDonationMessage_ok env msg.Body w m hd]
      simp

set_option maxRecDepth 100000 in
set_option exponentiation.threshold 2000 in
/-- Witness of C9: the purchase of user `u1` against a store that refuses
every statement returns an error after one submitted statement and leaves
both tables empty; the donation of user `u2` against a store that carries
the statement out returns nil. -/
theorem insert_error_iff_exec_failed_witness :
    unmarshalPurchase downEnv purchaseBody = .ok purchaseRecord
    ∧ (processPurchaseMessage downEnv purchaseBody World.empty).1.db
        = { ticket_purchases := [], donations := [], execs := [purchaseInsert purchaseRecord] }
    ∧ (processPurchaseMessage downEnv purchaseBody World.empty).2 ≠ none
    ∧ unmarshalDonation refEnv donationBody = .ok donationRecord
    ∧ ¬ (processDonationMessage refEnv donationBody World.empty).2 ≠ none :=
  ⟨by rfl,
    ((insert_error_iff_exec_failed downEnv { Body := purchaseBody } World.empty).1
      purchaseRecord (by rfl) (by decide)).1,
    ((insert_error_iff_exec_failed downEnv { Body := purchaseBody } World.empty).1
      purchaseRecord (by rfl) (by decide)).2.2.1.2 (by decide),
    by rfl,
    fun hne =>
      (((insert_error_iff_exec_failed refEnv { Body := donationBody } World.empty).2
        donationRecord (by rfl) (by decide)).2.2.1.1 hne) (by decide)⟩

/-- C10. The loop handles the deliveries one by one in the order they arrive,
each exactly once and whatever the earlier ones returned (it is the left fold
of the loop body over the sequence). One delivery leaves both tables as they
were or appends one row to one of them. After the whole sequence each table
holds what it held before, followed by the rows of the deliveries that were
valid for that table and whose insert the store carried out, in delivery
order. -/
theorem consume_append_only (env : Env) (msgs : List Delivery) (w : World) :
    consume env msgs w = msgs.foldl (iteration env) w
    ∧ (∀ (msg : Delivery) (w0 : World),
        ((iteration env w0 msg).db.ticket_purchases = w0.db.ticket_purchases
          ∧ (iteration env w0 msg).db.donations = w0.db.donations)
        ∨ ((∃ row, (iteration env w0 msg).db.ticket_purchases
              = w0.db.ticket_purchases ++ [row])
          ∧ (iteration env w0 msg).db.donations = w0.db.donations)
        ∨ ((iteration env w0 msg).db.ticket_purchases = w0.db.ticket_purchases
          ∧ ∃ row, (iteration env w0 msg).db.donations = w0.db.donations ++ [row]))
    ∧ (consume env msgs w).db.ticket_purchases
        = w.db.ticket_purchases ++ (persisted env w.db.execs.length msgs).1
    ∧ (consume env msgs w).db.donations
        = w.db.donations ++ (persisted env w.db.execs.length msgs).2 := by
  refine ⟨consume_eq_foldl env msgs w, ?_, ?_, ?_⟩
  · intro msg w0
    rw [iteration_db, processMessage_db]
    cases hreq : request env msg with
    | none => exact Or.inl ⟨rfl, rfl⟩
    | some r =>
      cases r with
      | purchase m =>
        simp only [Exec_purchaseInsert]
        by_cases hx : purchaseOk env w0.db.execs.length m = true
        · rw [if_pos hx]
          exact Or.inr (Or.inl ⟨⟨purchaseRow m, rfl⟩, rfl⟩)
        · rw [if_neg hx]
          exact Or.inl ⟨rfl, rfl⟩
      | donation m =>
        simp only [Exec_donationInsert]
        by_cases hx : donationOk env w0.db.execs.length m = true
        · rw [if_pos hx]
          exact Or.inr (Or.inr ⟨rfl, ⟨donationRow m, rfl⟩⟩)
        · rw [if_neg hx]
          exact Or.inl ⟨rfl, rfl⟩
  · rw [consume_eq_foldl]
    exact (foldl_iteration_tables env msgs w).1
  · rw [consume_eq_foldl]
    exact (foldl_iteration_tables env msgs w).2

set_option maxRecDepth 100000 in
set_option exponentiation.threshold 2000 in
/-- Witness of C10: a purchase without `user_token`, then a donation whose
insert the store refuses, then a purchase whose insert it carries out. All
three are handled; only the last one leaves a row. -/
theorem consume_append_only_witness :
    (consume flakyEnv sampleDeliveries World.empty).db.ticket_purchases
        = [purchaseRow purchaseRecord]
    ∧ (consume flakyEnv sampleDeliveries World.empty).db.donations = []
    ∧ (consume flakyEnv sampleDeliveries World.empty).db.execs
        = [donationInsert donationRecord, purchaseInsert purchaseRecord]
    ∧ (consume flakyEnv sampleDeliveries World.empty).log
        = [{ level := Level.Warn, msg := "Received invalid purchase message" },
           { level := Level.Error, msg := "Message processing error" },
           { level := Level.Info, msg := "Saved ticket purchase" }] :=
  ⟨((consume_append_only flakyEnv sampleDeliveries World.empty).2.2.1).trans (by rfl),
    ((consume_append_only flakyEnv sampleDeliveries World.empty).2.2.2).trans (by rfl),
    by rfl, by rfl⟩

end Purchases
